import Mathlib

/-!
Verification development for the parallel batch processor
(`src/batch_processor.py`, `src/main.py`, `src/batch_builder.py`).

The per-item task body and the coordinator of `process_batches`
(batch_processor.py lines 23-317) are embedded as a small-step transition
system: each constructor of `Step` below corresponds to one atomic region
of the task body (code between two suspension points, or one lock-protected
block, which asyncio executes without interleaving).  Pure helpers
(message assembly, response classification, pricing lookup, the
configuration checks of `main`/`process_batches`) are embedded as plain
functions, translated line by line from the source.
-/

/-- A decoded JSON value, as returned by `json.loads`.  Objects keep their
fields as an ordered association list, mirroring Python dict insertion
order. -/
inductive JsonVal where
  | obj (fields : List (String × JsonVal))
  | arr (elems : List JsonVal)
  | str (s : String)
  | num (q : ℚ)
  | bool (b : Bool)
  | nullV

/-- One chat message, as assembled at batch_processor.py lines 144-158. -/
structure Message where
  role : String
  content : String
deriving DecidableEq, Repr

/-- One work item, i.e. one row of `batches_df` as produced by
`build_batches` (batch_builder.py lines 66-74).  `systemRoleContent` is the
`content` field of the already-parsed `system_role` JSON (line 139 of
batch_processor.py parses the string produced by `json.dumps` at
batch_builder.py line 34, which always succeeds and always carries a
`content` key).  `questionContext` is the shared list of question-context
records; `responseFormat` is the JSON-schema dict. -/
structure WorkItem where
  systemRoleContent : String
  recordJson : String
  questionContext : List JsonVal
  responseFormat : JsonVal
  sourceFile : String

/-- The three base messages sent for every record (batch_processor.py
lines 147-149 and 155-157 are identical). -/
def baseMessages (w : WorkItem) : List Message :=
  [⟨"developer", w.systemRoleContent⟩,
   ⟨"user", "Here is the record I want reviewed. Provide a detailed response."⟩,
   ⟨"user", "[" ++ w.recordJson ++ "]"⟩]

/-- Message assembly, batch_processor.py lines 144-158.  `jdump` models
`json.dumps` (an external library function).  The Python guard
`if question_context and len(question_context) > 0` is truth-equivalent to
the list being non-empty. -/
def buildMessages (jdump : JsonVal → String) (w : WorkItem) : List Message :=
  if w.questionContext.length > 0 then
    [⟨"developer", w.systemRoleContent⟩,
     ⟨"user", "Here is the record I want reviewed. Provide a detailed response."⟩,
     ⟨"user", "[" ++ w.recordJson ++ "]"⟩,
     ⟨"developer", "Here is information you can use to help create your response:"⟩,
     ⟨"developer", jdump (JsonVal.arr w.questionContext)⟩]
  else
    [⟨"developer", w.systemRoleContent⟩,
     ⟨"user", "Here is the record I want reviewed. Provide a detailed response."⟩,
     ⟨"user", "[" ++ w.recordJson ++ "]"⟩]

/-- One row of the `API_Pricing` table. -/
structure PricingRow where
  modelName : String
  inputCostPerMillion : ℚ
  outputCostPerMillion : ℚ

/-- The lookup `pricing_df[pricing_df['Model'] == model_name]` followed by
`.iloc[0]` (batch_processor.py line 235-238): the first row whose model
matches, if any. -/
def pricingLookup (pricing : List PricingRow) (m : String) : Option PricingRow :=
  (pricing.filter (fun r => r.modelName == m)).head?

/-- Cost computation, batch_processor.py lines 234-243: the per-million
token rates applied to the usage counts, or 0.0 when the pricing table has
no row for the model. -/
def tokenCost (pricing : List PricingRow) (m : String) (pt ct : Nat) : ℚ :=
  match pricingLookup pricing m with
  | some r =>
      ((pt : ℚ) / 1000000) * r.inputCostPerMillion
        + ((ct : ℚ) / 1000000) * r.outputCostPerMillion
  | none => 0

/-- Python truthiness of a decoded JSON value, used by `if not results:`
(batch_processor.py line 191). -/
def pyFalsy : JsonVal → Bool
  | JsonVal.obj fs => fs.isEmpty
  | JsonVal.arr xs => xs.isEmpty
  | JsonVal.str s => s.isEmpty
  | JsonVal.num q => q == 0
  | JsonVal.bool b => !b
  | JsonVal.nullV => true

/-- Models `response_data.get('results', [])` (batch_processor.py
line 182).  `.get` exists only on dicts; on any other decoded value Python
raises `AttributeError`, which lands in the catch-all at line 272. -/
def dictGetResults : JsonVal → Except Unit JsonVal
  | JsonVal.obj fs =>
      Except.ok (((fs.find? (fun p => p.1 == "results")).map Prod.snd).getD (JsonVal.arr []))
  | _ => Except.error ()

/-- How one raw response body is classified by batch_processor.py
lines 179-196. -/
inductive RespClass where
  | parseFailure
  | getAttrFail
  | emptyResults
  | okResults (results : JsonVal)

/-- The response-validation logic of batch_processor.py lines 179-196.
`loads` models `json.loads`: `none` means `json.JSONDecodeError` was
raised (line 183); a parsed value with a falsy `results` field is the
empty-results failure (line 191). -/
def classifyResponse (loads : String → Option JsonVal) (content : String) : RespClass :=
  match loads content with
  | none => RespClass.parseFailure
  | some data =>
      match dictGetResults data with
      | Except.error _ => RespClass.getAttrFail
      | Except.ok results =>
          if pyFalsy results then RespClass.emptyResults
          else RespClass.okResults results

/-- The result row appended to the output CSV: the first element of
`results` plus the provenance metadata attached at batch_processor.py
lines 249-250.  The two metadata assignments are modelled as dedicated
fields rather than dict mutation (schema-declared keys never collide with
`source_file`/`batch_id` in the produced rows). -/
structure ResultRow where
  fields : List (String × JsonVal)
  source_file : String
  batch_id : Nat

/-- Extraction of `results[0]` and metadata attachment, batch_processor.py
lines 245-250.  Any Python type error on the way - indexing a non-sequence,
a `KeyError` from `results[0]` on a dict, or item assignment on a non-dict
first element - raises into the catch-all at line 272, modelled as
`Except.error`.  The `.arr []` case mirrors the `else \x7b\x7d` half of
line 246 (unreachable here, since a falsy `results` was already diverted at
line 191). -/
def buildResultRow (sourceFile : String) (batchId : Nat) : JsonVal → Except Unit ResultRow
  | JsonVal.arr (JsonVal.obj fs :: _) => Except.ok ⟨fs, sourceFile, batchId⟩
  | JsonVal.arr [] => Except.ok ⟨[], sourceFile, batchId⟩
  | _ => Except.error ()

/-- Token usage reported by the completion API (`completion.usage`). -/
structure ApiUsage where
  promptTokens : Nat
  completionTokens : Nat

/-- The environment's behaviour for one task: either the awaited API call
at batch_processor.py line 161 raises (network, auth, rate limit, ...), or
it returns a raw content string plus usage; `sinkOk` records whether the
`to_csv` call at line 257/262 would succeed for this item. -/
inductive TaskEnv where
  | transportFail
  | response (content : String) (usage : ApiUsage) (sinkOk : Bool)

/-- The resolved outcome of one task body, determined by the environment
and the pure classification code. -/
inductive TaskResult where
  | exnFail
  | parseFail
  | emptyRes (raw : String)
  | sinkFail (row : ResultRow) (usage : ApiUsage)
  | okRes (row : ResultRow) (usage : ApiUsage)

/-- All parameters of one run of `process_batches` that the task bodies
read: the work items, the per-task environment behaviour, the external
JSON codec, and the pricing configuration. -/
structure RunParams (n : Nat) where
  items : Fin n → WorkItem
  env : Fin n → TaskEnv
  jsonLoads : String → Option JsonVal
  jdump : JsonVal → String
  pricing : List PricingRow
  modelName : String

/-- The outcome of task `i`'s body (batch_processor.py lines 137-279),
as a function of the environment: transport errors and all uncaught
Python exceptions resolve to `exnFail`, response validation follows
`classifyResponse`, and a successful row becomes `okRes` or `sinkFail`
according to whether the CSV append would raise. -/
def RunParams.taskRes {n : Nat} (P : RunParams n) (i : Fin n) : TaskResult :=
  match P.env i with
  | TaskEnv.transportFail => TaskResult.exnFail
  | TaskEnv.response content usage sinkOk =>
      match classifyResponse P.jsonLoads content with
      | RespClass.parseFailure => TaskResult.parseFail
      | RespClass.getAttrFail => TaskResult.exnFail
      | RespClass.emptyResults => TaskResult.emptyRes content
      | RespClass.okResults results =>
          match buildResultRow (P.items i).sourceFile i.val results with
          | Except.error _ => TaskResult.exnFail
          | Except.ok row =>
              if sinkOk then TaskResult.okRes row usage
              else TaskResult.sinkFail row usage

/-- Whether a task result is a success (reaches line 266). -/
def TaskResult.isOk : TaskResult → Bool
  | TaskResult.okRes _ _ => true
  | _ => false

/-- The failure outcomes whose bookkeeping is a bare `failed += 1`
state update with no debug dump: the parse failure (lines 186-189) and the
catch-all exception handler (lines 272-279), the latter covering transport
errors, attribute/type errors and a raising CSV append. -/
def plainFailRes : TaskResult → Bool
  | TaskResult.exnFail => true
  | TaskResult.parseFail => true
  | TaskResult.sinkFail _ _ => true
  | _ => false

def RunParams.okAt {n : Nat} (P : RunParams n) (i : Fin n) : Bool :=
  (P.taskRes i).isOk

def RunParams.emptyAt {n : Nat} (P : RunParams n) (i : Fin n) : Bool :=
  match P.taskRes i with
  | TaskResult.emptyRes _ => true
  | _ => false

/-- The raw response content of a task that hit the empty-results failure
(junk for other tasks). -/
def RunParams.rawAt {n : Nat} (P : RunParams n) (i : Fin n) : String :=
  match P.taskRes i with
  | TaskResult.emptyRes raw => raw
  | _ => ""

/-- The row a successful task appends (junk for other tasks). -/
def RunParams.rowAt {n : Nat} (P : RunParams n) (i : Fin n) : ResultRow :=
  match P.taskRes i with
  | TaskResult.okRes row _ => row
  | _ => ⟨[], "", 0⟩

/-- Prompt-token usage added to the totals by a successful task. -/
def RunParams.ptAt {n : Nat} (P : RunParams n) (i : Fin n) : Nat :=
  match P.taskRes i with
  | TaskResult.okRes _ u => u.promptTokens
  | _ => 0

/-- Completion-token usage added to the totals by a successful task. -/
def RunParams.ctAt {n : Nat} (P : RunParams n) (i : Fin n) : Nat :=
  match P.taskRes i with
  | TaskResult.okRes _ u => u.completionTokens
  | _ => 0

/-- The cost a successful task adds to `total_cost` (batch_processor.py
lines 234-243, 268). -/
def RunParams.costAt {n : Nat} (P : RunParams n) (i : Fin n) : ℚ :=
  match P.taskRes i with
  | TaskResult.okRes _ u => tokenCost P.pricing P.modelName u.promptTokens u.completionTokens
  | _ => 0

/-- One debug dump file, written on the empty-results failure
(batch_processor.py lines 216-227): the full outbound messages, the
response-format schema, and the raw response content, keyed by the item's
`batch_id` in the file name. -/
structure DebugDump where
  batchId : Nat
  messages : List Message
  responseFormat : JsonVal
  rawContent : String

/-- The dump written for task `i` (lines 218-227): the response format is
already dict-shaped after the normalization at lines 192-196. -/
def mkDump {n : Nat} (P : RunParams n) (i : Fin n) (raw : String) : DebugDump :=
  ⟨i.val, buildMessages P.jdump (P.items i), (P.items i).responseFormat, raw⟩

/-- One line of the output CSV file: the single header line written by the
first `to_csv(..., mode='w')` (line 257), or one appended data row
(line 262). -/
inductive CsvRow where
  | header
  | data (row : ResultRow)

/-- Program counter of one task coroutine, naming the suspension points of
`process_single_batch` (batch_processor.py lines 114-279):
`created` - task created, before the line 119 check (also stands for a task
the creation loop at lines 283-285 abandons after cancellation, which is
observationally identical);
`waitingSem` - blocked on `async with semaphore` (line 122);
`slotHeld` - slot acquired, before the line 123 check;
`admitted` - past the line 123 check, before the `in_flight` increment;
`working` - `in_flight` incremented (lines 128-133), awaiting the API
call / running validation;
`dumped` - empty-results path, debug dump written (lines 216-227), before
the `failed` update;
`csvWritten` - success path, CSV row appended under `csv_lock`
(lines 253-262), before the final state update;
`exiting` - outcome recorded in the shared state, about to leave the
semaphore block;
`finished` - returned normally, slot released;
`abandoned` - returned early at line 120 or line 124 because the shutdown
flag was set. -/
inductive PC where
  | created
  | waitingSem
  | slotHeld
  | admitted
  | working
  | dumped
  | csvWritten
  | exiting
  | finished
  | abandoned
deriving DecidableEq, Repr

/-- PCs at which the task holds one of the 50 semaphore permits. -/
def holdsSlot : PC → Bool
  | PC.slotHeld => true
  | PC.admitted => true
  | PC.working => true
  | PC.dumped => true
  | PC.csvWritten => true
  | PC.exiting => true
  | _ => false

/-- PCs between the `in_flight += 1` and the matching `in_flight -= 1`. -/
def inFlightAt : PC → Bool
  | PC.working => true
  | PC.dumped => true
  | PC.csvWritten => true
  | _ => false

/-- PCs after the task's outcome has been recorded in `completed`/`failed`. -/
def recordedAt : PC → Bool
  | PC.exiting => true
  | PC.finished => true
  | _ => false

/-- PCs past the admission point, i.e. past the shutdown check at
line 123: such a task runs to completion. -/
def pastAdmission : PC → Bool
  | PC.admitted => true
  | PC.working => true
  | PC.dumped => true
  | PC.csvWritten => true
  | PC.exiting => true
  | PC.finished => true
  | _ => false

/-- PCs after the success path's CSV append. -/
def pastCsv : PC → Bool
  | PC.csvWritten => true
  | PC.exiting => true
  | PC.finished => true
  | _ => false

/-- PCs after the empty-results path's debug dump. -/
def pastDump : PC → Bool
  | PC.dumped => true
  | PC.exiting => true
  | PC.finished => true
  | _ => false

/-- Terminal PCs: the task coroutine has returned. -/
def terminalPC : PC → Bool
  | PC.finished => true
  | PC.abandoned => true
  | _ => false

/-- The shared state of one run: the `state` dict (batch_processor.py
lines 103-111, with `in_flight` as an integer exactly as a Python int),
the output CSV file contents, the semaphore's free permits (line 100), the
process-wide `shutdown_requested` flag (line 12), every task's program
counter, and the debug dumps written so far. -/
structure GState (n : Nat) where
  completed : Nat
  failed : Nat
  in_flight : Int
  total_cost : ℚ
  total_input_tokens : Nat
  total_output_tokens : Nat
  csv_file_initialized : Bool
  csv : List CsvRow
  semAvail : Nat
  shutdown : Bool
  pc : Fin n → PC
  dumps : List DebugDump

/-- The state at the start of `process_batches` (lines 84-112): counters
zero, no CSV file, all 50 permits free, no task started. -/
def initState (n : Nat) : GState n where
  completed := 0
  failed := 0
  in_flight := 0
  total_cost := 0
  total_input_tokens := 0
  total_output_tokens := 0
  csv_file_initialized := false
  csv := []
  semAvail := 50
  shutdown := false
  pc := fun _ => PC.created
  dumps := []

/-- One atomic step of the run: either the SIGINT handler fires, or one
task executes its next atomic region.  Lock-protected blocks
(`async with state_lock: ...`, `async with csv_lock: ...`) contain no
suspension point, so each is one step; the regions between suspension
points interleave freely across tasks. -/
inductive Step {n : Nat} (P : RunParams n) : GState n → GState n → Prop where
  /-- The SIGINT handler (lines 14-18) sets the global shutdown flag. -/
  | cancelRun (s : GState n) (h : s.shutdown = false) :
      Step P s { s with shutdown := true }
  /-- Line 119-120 (equivalently the creation-loop break at 284-285): the
  flag is already set before the task body starts, so it returns without
  touching any shared state. -/
  | skipEarly (s : GState n) (i : Fin n)
      (hpc : s.pc i = PC.created) (hsd : s.shutdown = true) :
      Step P s { s with pc := Function.update s.pc i PC.abandoned }
  /-- Line 119 with the flag unset: proceed to the semaphore. -/
  | enterBody (s : GState n) (i : Fin n)
      (hpc : s.pc i = PC.created) (hsd : s.shutdown = false) :
      Step P s { s with pc := Function.update s.pc i PC.waitingSem }
  /-- Line 122: `async with semaphore` grants one of the 50 permits. -/
  | acquireSlot (s : GState n) (i : Fin n)
      (hpc : s.pc i = PC.waitingSem) (hsem : 0 < s.semAvail) :
      Step P s { s with semAvail := s.semAvail - 1
                        pc := Function.update s.pc i PC.slotHeld }
  /-- Lines 123-124 with the flag set: return, releasing the slot on the
  way out of the `async with semaphore` block. -/
  | skipLate (s : GState n) (i : Fin n)
      (hpc : s.pc i = PC.slotHeld) (hsd : s.shutdown = true) :
      Step P s { s with semAvail := s.semAvail + 1
                        pc := Function.update s.pc i PC.abandoned }
  /-- Line 123 with the flag unset: the task is admitted. -/
  | passCheck (s : GState n) (i : Fin n)
      (hpc : s.pc i = PC.slotHeld) (hsd : s.shutdown = false) :
      Step P s { s with pc := Function.update s.pc i PC.admitted }
  /-- Lines 128-135: under `state_lock`, `in_flight += 1` (the snapshot
  read and the progress print have no effect on shared state). -/
  | incrFlight (s : GState n) (i : Fin n) (hpc : s.pc i = PC.admitted) :
      Step P s { s with in_flight := s.in_flight + 1
                        pc := Function.update s.pc i PC.working }
  /-- The bare-failure bookkeeping, under `state_lock`: lines 186-189
  (parse failure) or lines 272-279 (catch-all: transport error, attribute
  or type error, or raising CSV append): `failed += 1; in_flight -= 1`. -/
  | plainFail (s : GState n) (i : Fin n)
      (hpc : s.pc i = PC.working) (hres : plainFailRes (P.taskRes i) = true) :
      Step P s { s with failed := s.failed + 1
                        in_flight := s.in_flight - 1
                        pc := Function.update s.pc i PC.exiting }
  /-- Lines 216-227: the empty-results path writes its debug dump file. -/
  | dumpDebug (s : GState n) (i : Fin n) (raw : String)
      (hpc : s.pc i = PC.working) (hres : P.taskRes i = TaskResult.emptyRes raw) :
      Step P s { s with dumps := s.dumps ++ [mkDump P i raw]
                        pc := Function.update s.pc i PC.dumped }
  /-- Lines 229-232: the empty-results path records its failure under
  `state_lock`. -/
  | emptyFail (s : GState n) (i : Fin n) (raw : String)
      (hpc : s.pc i = PC.dumped) (hres : P.taskRes i = TaskResult.emptyRes raw) :
      Step P s { s with failed := s.failed + 1
                        in_flight := s.in_flight - 1
                        pc := Function.update s.pc i PC.exiting }
  /-- Lines 253-262, under `csv_lock`: the `csv_file_initialized` check and
  the header-or-append write happen in one exclusive section.  The write is
  modelled all-or-nothing; a raising `to_csv` is the `sinkFail` outcome and
  goes through `plainFail` instead.  (The source sets the flag only in the
  header branch; in the append branch it is already `true`, so assigning
  `true` unconditionally is equivalent.) -/
  | writeCsv (s : GState n) (i : Fin n) (row : ResultRow) (u : ApiUsage)
      (hpc : s.pc i = PC.working) (hres : P.taskRes i = TaskResult.okRes row u) :
      Step P s { s with
        csv := if s.csv_file_initialized then s.csv ++ [CsvRow.data row]
               else [CsvRow.header, CsvRow.data row]
        csv_file_initialized := true
        pc := Function.update s.pc i PC.csvWritten }
  /-- Lines 264-270, under `state_lock`: the success bookkeeping. -/
  | recordOk (s : GState n) (i : Fin n) (row : ResultRow) (u : ApiUsage)
      (hpc : s.pc i = PC.csvWritten) (hres : P.taskRes i = TaskResult.okRes row u) :
      Step P s { s with
        completed := s.completed + 1
        in_flight := s.in_flight - 1
        total_cost := s.total_cost
          + tokenCost P.pricing P.modelName u.promptTokens u.completionTokens
        total_input_tokens := s.total_input_tokens + u.promptTokens
        total_output_tokens := s.total_output_tokens + u.completionTokens
        pc := Function.update s.pc i PC.exiting }
  /-- Leaving the `async with semaphore` block returns the permit. -/
  | releaseSlot (s : GState n) (i : Fin n) (hpc : s.pc i = PC.exiting) :
      Step P s { s with semAvail := s.semAvail + 1
                        pc := Function.update s.pc i PC.finished }

/-- States reachable from the start of a run. -/
def Reach {n : Nat} (P : RunParams n) (s : GState n) : Prop :=
  Relation.ReflTransGen (Step P) (initState n) s

/-- The coordinator has settled: `asyncio.gather` at line 290 has returned,
i.e. every task coroutine has terminated. -/
def Settled {n : Nat} (s : GState n) : Prop :=
  ∀ i : Fin n, terminalPC (s.pc i) = true

/-- The final run summary printed and logged at batch_processor.py
lines 296-313 (wall-clock duration omitted: real time is outside the
model). -/
structure RunSummary where
  totalRecords : Nat
  completed : Nat
  failed : Nat
  total_cost : ℚ
  total_input_tokens : Nat
  total_output_tokens : Nat
deriving Repr

/-- The summary emitted for a final state; defined for every state, as the
summary block runs unconditionally after `gather(..., return_exceptions=True)`. -/
def summaryOf {n : Nat} (s : GState n) : RunSummary :=
  ⟨n, s.completed, s.failed, s.total_cost, s.total_input_tokens, s.total_output_tokens⟩

/-- Number of tasks whose index and PC satisfy `q`. -/
def finCount {n : Nat} (q : Fin n → Bool) : Nat :=
  (Finset.univ.filter (fun i => q i = true)).card

/-- Sum of `f` over the tasks satisfying `q`. -/
def finSum {n : Nat} {M : Type} [AddCommMonoid M] (q : Fin n → Bool) (f : Fin n → M) : M :=
  Finset.sum (Finset.univ.filter (fun i => q i = true)) f

theorem finSum_update {n : Nat} {M : Type} [AddCommMonoid M]
    (pc : Fin n → PC) (i : Fin n) (v : PC) (q : Fin n → PC → Bool) (f : Fin n → M) :
    finSum (fun j => q j (Function.update pc i v j)) f
        + (if q i (pc i) then f i else 0)
      = finSum (fun j => q j (pc j)) f + (if q i v then f i else 0) := by
  classical
  unfold finSum
  rw [Finset.sum_filter, Finset.sum_filter]
  rw [← Finset.sum_erase_add _ _ (Finset.mem_univ i),
      ← Finset.sum_erase_add _ _ (Finset.mem_univ i)]
  have herase :
      (Finset.sum (Finset.univ.erase i)
        (fun j => if q j (Function.update pc i v j) = true then f j else 0))
      = Finset.sum (Finset.univ.erase i)
        (fun j => if q j (pc j) = true then f j else 0) := by
    refine Finset.sum_congr rfl (fun j hj => ?_)
    rw [Function.update_noteq (Finset.ne_of_mem_erase hj)]
  rw [herase]
  simp only [Function.update_same]
  abel

theorem finCount_update {n : Nat} (pc : Fin n → PC) (i : Fin n) (v : PC)
    (q : Fin n → PC → Bool) :
    finCount (fun j => q j (Function.update pc i v j))
        + (if q i (pc i) then 1 else 0)
      = finCount (fun j => q j (pc j)) + (if q i v then 1 else 0) := by
  classical
  have h := finSum_update (M := ℕ) pc i v q (fun _ => 1)
  have hc : ∀ r : Fin n → Bool, finCount r = finSum r (fun _ => (1 : ℕ)) := by
    intro r
    unfold finCount finSum
    exact Finset.card_eq_sum_ones _
  rw [hc, hc]
  simpa using h

theorem finCount_mono {n : Nat} (q r : Fin n → Bool)
    (h : ∀ i, q i = true → r i = true) : finCount q ≤ finCount r := by
  classical
  unfold finCount
  apply Finset.card_le_card
  intro i hi
  simp only [Finset.mem_filter] at hi ⊢
  exact ⟨hi.1, h i hi.2⟩

theorem finCount_le {n : Nat} (q : Fin n → Bool) : finCount q ≤ n := by
  classical
  unfold finCount
  calc (Finset.univ.filter (fun i => q i = true)).card
      ≤ (Finset.univ : Finset (Fin n)).card :=
        Finset.card_le_card (Finset.filter_subset _ _)
    _ = n := Finset.card_univ.trans (Fintype.card_fin n)

theorem finCount_split {n : Nat} (q r : Fin n → Bool) :
    finCount (fun i => q i && r i) + finCount (fun i => q i && !(r i)) = finCount q := by
  classical
  unfold finCount
  have h1 : Finset.univ.filter (fun i : Fin n => (q i && r i) = true)
      = (Finset.univ.filter (fun i => q i = true)).filter (fun i => r i = true) := by
    ext i
    simp [Bool.and_eq_true]
  have h2 : Finset.univ.filter (fun i : Fin n => (q i && !(r i)) = true)
      = (Finset.univ.filter (fun i => q i = true)).filter (fun i => ¬(r i = true)) := by
    ext i
    simp [Bool.and_eq_true, and_comm]
  rw [h1, h2, Finset.filter_card_add_filter_neg_card_eq_card]

/-- The contents of the output CSV are exactly: nothing before the first
successful write; afterwards one header line followed by one data row per
task that has passed the `csv_lock` section on the success path, in write
order, each task appearing exactly once. -/
def CsvInv {n : Nat} (P : RunParams n) (s : GState n) : Prop :=
  (s.csv_file_initialized = false →
    s.csv = [] ∧ ∀ i : Fin n, ¬(P.okAt i = true ∧ pastCsv (s.pc i) = true)) ∧
  (s.csv_file_initialized = true → ∃ l : List (Fin n),
    s.csv = CsvRow.header :: l.map (fun i => CsvRow.data (P.rowAt i)) ∧
    l ≠ [] ∧ l.Nodup ∧
    ∀ i : Fin n, i ∈ l ↔ (P.okAt i = true ∧ pastCsv (s.pc i) = true))

/-- The debug-dump directory holds exactly one dump per task that has
passed the dump write on the empty-results path, in write order. -/
def DumpInv {n : Nat} (P : RunParams n) (s : GState n) : Prop :=
  ∃ l : List (Fin n),
    s.dumps = l.map (fun i => mkDump P i (P.rawAt i)) ∧ l.Nodup ∧
    ∀ i : Fin n, i ∈ l ↔ (P.emptyAt i = true ∧ pastDump (s.pc i) = true)

/-- The inductive invariant of the run: how each shared counter is
determined by the tasks' program counters and resolved outcomes. -/
structure RunInv {n : Nat} (P : RunParams n) (s : GState n) : Prop where
  sem_total : s.semAvail + finCount (fun i => holdsSlot (s.pc i)) = 50
  inflight_eq : s.in_flight = (finCount (fun i => inFlightAt (s.pc i)) : ℤ)
  completed_eq : s.completed = finCount (fun i => recordedAt (s.pc i) && P.okAt i)
  failed_eq : s.failed = finCount (fun i => recordedAt (s.pc i) && !(P.okAt i))
  cost_eq : s.total_cost = finSum (fun i => recordedAt (s.pc i) && P.okAt i) P.costAt
  inTok_eq : s.total_input_tokens
      = finSum (fun i => recordedAt (s.pc i) && P.okAt i) P.ptAt
  outTok_eq : s.total_output_tokens
      = finSum (fun i => recordedAt (s.pc i) && P.okAt i) P.ctAt
  csv_inv : CsvInv P s
  dump_inv : DumpInv P s
  no_abandon : s.shutdown = false → ∀ i : Fin n, s.pc i ≠ PC.abandoned

theorem finCount_zero {n : Nat} (r : Fin n → Bool) (h : ∀ i, r i = false) :
    finCount r = 0 := by
  classical
  unfold finCount
  convert Finset.card_empty
  ext i
  simp [h i]

theorem finSum_zero {n : Nat} {M : Type} [AddCommMonoid M]
    (r : Fin n → Bool) (f : Fin n → M) (h : ∀ i, r i = false) : finSum r f = 0 := by
  classical
  unfold finSum
  convert Finset.sum_empty
  ext i
  simp [h i]

theorem finCount_update_eq {n : Nat} (pc : Fin n → PC) (i : Fin n) (v : PC)
    (q : Fin n → PC → Bool) (h1 : q i (pc i) = q i v) :
    finCount (fun j => q j (Function.update pc i v j)) = finCount (fun j => q j (pc j)) := by
  have h := finCount_update pc i v q
  rw [h1] at h
  cases hqv : q i v <;> simp [hqv] at h <;> omega

theorem finCount_update_incr {n : Nat} (pc : Fin n → PC) (i : Fin n) (v : PC)
    (q : Fin n → PC → Bool) (h1 : q i (pc i) = false) (h2 : q i v = true) :
    finCount (fun j => q j (Function.update pc i v j))
      = finCount (fun j => q j (pc j)) + 1 := by
  have h := finCount_update pc i v q
  rw [h1, h2] at h
  simp at h
  omega

theorem finSum_update_eq {n : Nat} {M : Type} [AddCancelCommMonoid M]
    (pc : Fin n → PC) (i : Fin n) (v : PC) (q : Fin n → PC → Bool) (f : Fin n → M)
    (h1 : q i (pc i) = q i v) :
    finSum (fun j => q j (Function.update pc i v j)) f
      = finSum (fun j => q j (pc j)) f := by
  have h := finSum_update pc i v q f
  rw [h1] at h
  exact add_right_cancel h

theorem finSum_update_incr {n : Nat} {M : Type} [AddCancelCommMonoid M]
    (pc : Fin n → PC) (i : Fin n) (v : PC) (q : Fin n → PC → Bool) (f : Fin n → M)
    (h1 : q i (pc i) = false) (h2 : q i v = true) :
    finSum (fun j => q j (Function.update pc i v j)) f
      = finSum (fun j => q j (pc j)) f + f i := by
  have h := finSum_update pc i v q f
  rw [h1, h2] at h
  simpa using h

theorem okAt_false_of_plainFail {n : Nat} (P : RunParams n) (i : Fin n)
    (h : plainFailRes (P.taskRes i) = true) : P.okAt i = false := by
  unfold RunParams.okAt TaskResult.isOk
  unfold plainFailRes at h
  cases hres : P.taskRes i <;> rw [hres] at h <;> simp_all

theorem emptyAt_false_of_plainFail {n : Nat} (P : RunParams n) (i : Fin n)
    (h : plainFailRes (P.taskRes i) = true) : P.emptyAt i = false := by
  unfold RunParams.emptyAt
  unfold plainFailRes at h
  cases hres : P.taskRes i <;> rw [hres] at h <;> simp_all

theorem okAt_false_of_emptyRes {n : Nat} (P : RunParams n) (i : Fin n) (raw : String)
    (h : P.taskRes i = TaskResult.emptyRes raw) : P.okAt i = false := by
  unfold RunParams.okAt TaskResult.isOk
  rw [h]

theorem emptyAt_true_of_emptyRes {n : Nat} (P : RunParams n) (i : Fin n) (raw : String)
    (h : P.taskRes i = TaskResult.emptyRes raw) : P.emptyAt i = true := by
  unfold RunParams.emptyAt
  rw [h]

theorem rawAt_of_emptyRes {n : Nat} (P : RunParams n) (i : Fin n) (raw : String)
    (h : P.taskRes i = TaskResult.emptyRes raw) : P.rawAt i = raw := by
  unfold RunParams.rawAt
  rw [h]

theorem okAt_true_of_okRes {n : Nat} (P : RunParams n) (i : Fin n) (row : ResultRow)
    (u : ApiUsage) (h : P.taskRes i = TaskResult.okRes row u) : P.okAt i = true := by
  unfold RunParams.okAt TaskResult.isOk
  rw [h]

theorem emptyAt_false_of_okRes {n : Nat} (P : RunParams n) (i : Fin n) (row : ResultRow)
    (u : ApiUsage) (h : P.taskRes i = TaskResult.okRes row u) : P.emptyAt i = false := by
  unfold RunParams.emptyAt
  rw [h]

theorem rowAt_of_okRes {n : Nat} (P : RunParams n) (i : Fin n) (row : ResultRow)
    (u : ApiUsage) (h : P.taskRes i = TaskResult.okRes row u) : P.rowAt i = row := by
  unfold RunParams.rowAt
  rw [h]

theorem costAt_of_okRes {n : Nat} (P : RunParams n) (i : Fin n) (row : ResultRow)
    (u : ApiUsage) (h : P.taskRes i = TaskResult.okRes row u) :
    P.costAt i = tokenCost P.pricing P.modelName u.promptTokens u.completionTokens := by
  unfold RunParams.costAt
  rw [h]

theorem ptAt_of_okRes {n : Nat} (P : RunParams n) (i : Fin n) (row : ResultRow)
    (u : ApiUsage) (h : P.taskRes i = TaskResult.okRes row u) :
    P.ptAt i = u.promptTokens := by
  unfold RunParams.ptAt
  rw [h]

theorem ctAt_of_okRes {n : Nat} (P : RunParams n) (i : Fin n) (row : ResultRow)
    (u : ApiUsage) (h : P.taskRes i = TaskResult.okRes row u) :
    P.ctAt i = u.completionTokens := by
  unfold RunParams.ctAt
  rw [h]

theorem cond_update {n : Nat} {pc : Fin n → PC} {i : Fin n} {v : PC}
    (ok : Fin n → Bool) (pcs : PC → Bool) (hi : pcs v = pcs (pc i)) :
    ∀ j, (ok j = true ∧ pcs (Function.update pc i v j) = true)
        ↔ (ok j = true ∧ pcs (pc j) = true) := by
  intro j
  rcases eq_or_ne j i with rfl | hne
  · rw [Function.update_same, hi]
  · rw [Function.update_noteq hne]

theorem cond_update_notok {n : Nat} {pc : Fin n → PC} {i : Fin n} {v : PC}
    (ok : Fin n → Bool) (pcs : PC → Bool) (hok : ok i = false) :
    ∀ j, (ok j = true ∧ pcs (Function.update pc i v j) = true)
        ↔ (ok j = true ∧ pcs (pc j) = true) := by
  intro j
  rcases eq_or_ne j i with rfl | hne
  · constructor
    · rintro ⟨h1, _⟩
      rw [hok] at h1
      cases h1
    · rintro ⟨h1, _⟩
      rw [hok] at h1
      cases h1
  · rw [Function.update_noteq hne]

theorem CsvInv_of_eq {n : Nat} {P : RunParams n} {s s2 : GState n}
    (hI : CsvInv P s)
    (hcsvI : s2.csv_file_initialized = s.csv_file_initialized)
    (hcsv : s2.csv = s.csv)
    (hcond : ∀ j, (P.okAt j = true ∧ pastCsv (s2.pc j) = true)
        ↔ (P.okAt j = true ∧ pastCsv (s.pc j) = true)) :
    CsvInv P s2 := by
  constructor
  · intro h0
    rw [hcsvI] at h0
    obtain ⟨h1, h2⟩ := hI.1 h0
    exact ⟨hcsv.trans h1, fun j hj => h2 j ((hcond j).mp hj)⟩
  · intro h1
    rw [hcsvI] at h1
    obtain ⟨l, hl1, hl2, hl3, hl4⟩ := hI.2 h1
    exact ⟨l, hcsv.trans hl1, hl2, hl3, fun j => (hl4 j).trans (hcond j).symm⟩

theorem DumpInv_of_eq {n : Nat} {P : RunParams n} {s s2 : GState n}
    (hI : DumpInv P s) (hd : s2.dumps = s.dumps)
    (hcond : ∀ j, (P.emptyAt j = true ∧ pastDump (s2.pc j) = true)
        ↔ (P.emptyAt j = true ∧ pastDump (s.pc j) = true)) :
    DumpInv P s2 := by
  obtain ⟨l, h1, h2, h3⟩ := hI
  exact ⟨l, hd.trans h1, h2, fun j => (h3 j).trans (hcond j).symm⟩

theorem update_no_abandon {n : Nat} {pc : Fin n → PC} {i : Fin n} {v : PC}
    (hall : ∀ j, pc j ≠ PC.abandoned) (hv : v ≠ PC.abandoned) :
    ∀ j, Function.update pc i v j ≠ PC.abandoned := by
  intro j
  rcases eq_or_ne j i with rfl | hne
  · rw [Function.update_same]
    exact hv
  · rw [Function.update_noteq hne]
    exact hall j

theorem runInv_init {n : Nat} (P : RunParams n) : RunInv P (initState n) := by
  refine ⟨?_, ?_, ?_, ?_, ?_, ?_, ?_, ?_, ?_, ?_⟩
  · rw [finCount_zero _ (fun i => by simp [initState, holdsSlot])]
    rfl
  · rw [finCount_zero _ (fun i => by simp [initState, inFlightAt])]
    rfl
  · rw [finCount_zero _ (fun i => by simp [initState, recordedAt])]
    rfl
  · rw [finCount_zero _ (fun i => by simp [initState, recordedAt])]
    rfl
  · rw [finSum_zero _ _ (fun i => by simp [initState, recordedAt])]
    rfl
  · rw [finSum_zero _ _ (fun i => by simp [initState, recordedAt])]
    rfl
  · rw [finSum_zero _ _ (fun i => by simp [initState, recordedAt])]
    rfl
  · constructor
    · intro _
      refine ⟨rfl, fun i hcontra => ?_⟩
      have := hcontra.2
      simp [initState, pastCsv] at this
    · intro h
      simp [initState] at h
  · refine ⟨[], rfl, List.nodup_nil, fun i => ?_⟩
    simp [initState, pastDump]
  · intro _ i
    simp [initState]

theorem finCount_update_decr {n : Nat} (pc : Fin n → PC) (i : Fin n) (v : PC)
    (q : Fin n → PC → Bool) (h1 : q i (pc i) = true) (h2 : q i v = false) :
    finCount (fun j => q j (Function.update pc i v j)) + 1
      = finCount (fun j => q j (pc j)) := by
  have h := finCount_update pc i v q
  rw [h1, h2] at h
  simp at h
  omega

theorem nodup_append_single {α : Type} {l : List α} {a : α}
    (hnd : l.Nodup) (hni : a ∉ l) : (l ++ [a]).Nodup := by
  refine List.Nodup.append hnd (List.nodup_singleton a) ?_
  intro x hx hx2
  simp only [List.mem_singleton] at hx2
  subst hx2
  exact hni hx

theorem mem_append_single_of_ne {α : Type} {l : List α} {a b : α} (h : b ≠ a) :
    (b ∈ l ++ [a]) ↔ b ∈ l := by
  simp [List.mem_append, h]

set_option maxHeartbeats 1000000 in
theorem runInv_step {n : Nat} {P : RunParams n} {s s2 : GState n}
    (hI : RunInv P s) (hs : Step P s s2) : RunInv P s2 := by
  cases hs with
  | cancelRun h =>
      refine ⟨hI.sem_total, hI.inflight_eq, hI.completed_eq, hI.failed_eq, hI.cost_eq,
        hI.inTok_eq, hI.outTok_eq, ?_, ?_, ?_⟩
      · exact CsvInv_of_eq hI.csv_inv rfl rfl (fun j => Iff.rfl)
      · exact DumpInv_of_eq hI.dump_inv rfl (fun j => Iff.rfl)
      · intro hsd2
        simp at hsd2
  | skipEarly i hpc hsd =>
      refine ⟨?_, ?_, ?_, ?_, ?_, ?_, ?_, ?_, ?_, ?_⟩
      · dsimp only
        rw [finCount_update_eq s.pc i PC.abandoned (fun _ p => holdsSlot p) (by rw [hpc]; rfl)]
        exact hI.sem_total
      · dsimp only
        rw [finCount_update_eq s.pc i PC.abandoned (fun _ p => inFlightAt p) (by rw [hpc]; rfl)]
        exact hI.inflight_eq
      · dsimp only
        rw [finCount_update_eq s.pc i PC.abandoned
          (fun j p => recordedAt p && P.okAt j) (by rw [hpc]; rfl)]
        exact hI.completed_eq
      · dsimp only
        rw [finCount_update_eq s.pc i PC.abandoned
          (fun j p => recordedAt p && !(P.okAt j)) (by rw [hpc]; rfl)]
        exact hI.failed_eq
      · dsimp only
        rw [finSum_update_eq s.pc i PC.abandoned
          (fun j p => recordedAt p && P.okAt j) P.costAt (by rw [hpc]; rfl)]
        exact hI.cost_eq
      · dsimp only
        rw [finSum_update_eq s.pc i PC.abandoned
          (fun j p => recordedAt p && P.okAt j) P.ptAt (by rw [hpc]; rfl)]
        exact hI.inTok_eq
      · dsimp only
        rw [finSum_update_eq s.pc i PC.abandoned
          (fun j p => recordedAt p && P.okAt j) P.ctAt (by rw [hpc]; rfl)]
        exact hI.outTok_eq
      · exact CsvInv_of_eq hI.csv_inv rfl rfl (cond_update P.okAt pastCsv (by rw [hpc]; rfl))
      · exact DumpInv_of_eq hI.dump_inv rfl (cond_update P.emptyAt pastDump (by rw [hpc]; rfl))
      · intro hsd2
        dsimp only at hsd2
        rw [hsd] at hsd2
        simp at hsd2
  | enterBody i hpc hsd =>
      refine ⟨?_, ?_, ?_, ?_, ?_, ?_, ?_, ?_, ?_, ?_⟩
      · dsimp only
        rw [finCount_update_eq s.pc i PC.waitingSem (fun _ p => holdsSlot p) (by rw [hpc]; rfl)]
        exact hI.sem_total
      · dsimp only
        rw [finCount_update_eq s.pc i PC.waitingSem (fun _ p => inFlightAt p) (by rw [hpc]; rfl)]
        exact hI.inflight_eq
      · dsimp only
        rw [finCount_update_eq s.pc i PC.waitingSem
          (fun j p => recordedAt p && P.okAt j) (by rw [hpc]; rfl)]
        exact hI.completed_eq
      · dsimp only
        rw [finCount_update_eq s.pc i PC.waitingSem
          (fun j p => recordedAt p && !(P.okAt j)) (by rw [hpc]; rfl)]
        exact hI.failed_eq
      · dsimp only
        rw [finSum_update_eq s.pc i PC.waitingSem
          (fun j p => recordedAt p && P.okAt j) P.costAt (by rw [hpc]; rfl)]
        exact hI.cost_eq
      · dsimp only
        rw [finSum_update_eq s.pc i PC.waitingSem
          (fun j p => recordedAt p && P.okAt j) P.ptAt (by rw [hpc]; rfl)]
        exact hI.inTok_eq
      · dsimp only
        rw [finSum_update_eq s.pc i PC.waitingSem
          (fun j p => recordedAt p && P.okAt j) P.ctAt (by rw [hpc]; rfl)]
        exact hI.outTok_eq
      · exact CsvInv_of_eq hI.csv_inv rfl rfl (cond_update P.okAt pastCsv (by rw [hpc]; rfl))
      · exact DumpInv_of_eq hI.dump_inv rfl (cond_update P.emptyAt pastDump (by rw [hpc]; rfl))
      · intro hsd2
        exact update_no_abandon (hI.no_abandon hsd2) (by decide)
  | acquireSlot i hpc hsem =>
      refine ⟨?_, ?_, ?_, ?_, ?_, ?_, ?_, ?_, ?_, ?_⟩
      · dsimp only
        rw [finCount_update_incr s.pc i PC.slotHeld (fun _ p => holdsSlot p)
          (by rw [hpc]; rfl) rfl]
        have h50 := hI.sem_total
        omega
      · dsimp only
        rw [finCount_update_eq s.pc i PC.slotHeld (fun _ p => inFlightAt p) (by rw [hpc]; rfl)]
        exact hI.inflight_eq
      · dsimp only
        rw [finCount_update_eq s.pc i PC.slotHeld
          (fun j p => recordedAt p && P.okAt j) (by rw [hpc]; rfl)]
        exact hI.completed_eq
      · dsimp only
        rw [finCount_update_eq s.pc i PC.slotHeld
          (fun j p => recordedAt p && !(P.okAt j)) (by rw [hpc]; rfl)]
        exact hI.failed_eq
      · dsimp only
        rw [finSum_update_eq s.pc i PC.slotHeld
          (fun j p => recordedAt p && P.okAt j) P.costAt (by rw [hpc]; rfl)]
        exact hI.cost_eq
      · dsimp only
        rw [finSum_update_eq s.pc i PC.slotHeld
          (fun j p => recordedAt p && P.okAt j) P.ptAt (by rw [hpc]; rfl)]
        exact hI.inTok_eq
      · dsimp only
        rw [finSum_update_eq s.pc i PC.slotHeld
          (fun j p => recordedAt p && P.okAt j) P.ctAt (by rw [hpc]; rfl)]
        exact hI.outTok_eq
      · exact CsvInv_of_eq hI.csv_inv rfl rfl (cond_update P.okAt pastCsv (by rw [hpc]; rfl))
      · exact DumpInv_of_eq hI.dump_inv rfl (cond_update P.emptyAt pastDump (by rw [hpc]; rfl))
      · intro hsd2
        exact update_no_abandon (hI.no_abandon hsd2) (by decide)
  | skipLate i hpc hsd =>
      refine ⟨?_, ?_, ?_, ?_, ?_, ?_, ?_, ?_, ?_, ?_⟩
      · dsimp only
        have hc : finCount (fun j => holdsSlot (Function.update s.pc i PC.abandoned j)) + 1
            = finCount (fun j => holdsSlot (s.pc j)) :=
          finCount_update_decr s.pc i PC.abandoned (fun _ p => holdsSlot p)
            (by rw [hpc]; rfl) rfl
        have h50 := hI.sem_total
        omega
      · dsimp only
        rw [finCount_update_eq s.pc i PC.abandoned (fun _ p => inFlightAt p) (by rw [hpc]; rfl)]
        exact hI.inflight_eq
      · dsimp only
        rw [finCount_update_eq s.pc i PC.abandoned
          (fun j p => recordedAt p && P.okAt j) (by rw [hpc]; rfl)]
        exact hI.completed_eq
      · dsimp only
        rw [finCount_update_eq s.pc i PC.abandoned
          (fun j p => recordedAt p && !(P.okAt j)) (by rw [hpc]; rfl)]
        exact hI.failed_eq
      · dsimp only
        rw [finSum_update_eq s.pc i PC.abandoned
          (fun j p => recordedAt p && P.okAt j) P.costAt (by rw [hpc]; rfl)]
        exact hI.cost_eq
      · dsimp only
        rw [finSum_update_eq s.pc i PC.abandoned
          (fun j p => recordedAt p && P.okAt j) P.ptAt (by rw [hpc]; rfl)]
        exact hI.inTok_eq
      · dsimp only
        rw [finSum_update_eq s.pc i PC.abandoned
          (fun j p => recordedAt p && P.okAt j) P.ctAt (by rw [hpc]; rfl)]
        exact hI.outTok_eq
      · exact CsvInv_of_eq hI.csv_inv rfl rfl (cond_update P.okAt pastCsv (by rw [hpc]; rfl))
      · exact DumpInv_of_eq hI.dump_inv rfl (cond_update P.emptyAt pastDump (by rw [hpc]; rfl))
      · intro hsd2
        dsimp only at hsd2
        rw [hsd] at hsd2
        simp at hsd2
  | passCheck i hpc hsd =>
      refine ⟨?_, ?_, ?_, ?_, ?_, ?_, ?_, ?_, ?_, ?_⟩
      · dsimp only
        rw [finCount_update_eq s.pc i PC.admitted (fun _ p => holdsSlot p) (by rw [hpc]; rfl)]
        exact hI.sem_total
      · dsimp only
        rw [finCount_update_eq s.pc i PC.admitted (fun _ p => inFlightAt p) (by rw [hpc]; rfl)]
        exact hI.inflight_eq
      · dsimp only
        rw [finCount_update_eq s.pc i PC.admitted
          (fun j p => recordedAt p && P.okAt j) (by rw [hpc]; rfl)]
        exact hI.completed_eq
      · dsimp only
        rw [finCount_update_eq s.pc i PC.admitted
          (fun j p => recordedAt p && !(P.okAt j)) (by rw [hpc]; rfl)]
        exact hI.failed_eq
      · dsimp only
        rw [finSum_update_eq s.pc i PC.admitted
          (fun j p => recordedAt p && P.okAt j) P.costAt (by rw [hpc]; rfl)]
        exact hI.cost_eq
      · dsimp only
        rw [finSum_update_eq s.pc i PC.admitted
          (fun j p => recordedAt p && P.okAt j) P.ptAt (by rw [hpc]; rfl)]
        exact hI.inTok_eq
      · dsimp only
        rw [finSum_update_eq s.pc i PC.admitted
          (fun j p => recordedAt p && P.okAt j) P.ctAt (by rw [hpc]; rfl)]
        exact hI.outTok_eq
      · exact CsvInv_of_eq hI.csv_inv rfl rfl (cond_update P.okAt pastCsv (by rw [hpc]; rfl))
      · exact DumpInv_of_eq hI.dump_inv rfl (cond_update P.emptyAt pastDump (by rw [hpc]; rfl))
      · intro hsd2
        exact update_no_abandon (hI.no_abandon hsd2) (by decide)
  | incrFlight i hpc =>
      refine ⟨?_, ?_, ?_, ?_, ?_, ?_, ?_, ?_, ?_, ?_⟩
      · dsimp only
        rw [finCount_update_eq s.pc i PC.working (fun _ p => holdsSlot p) (by rw [hpc]; rfl)]
        exact hI.sem_total
      · dsimp only
        rw [finCount_update_incr s.pc i PC.working (fun _ p => inFlightAt p)
          (by rw [hpc]; rfl) rfl]
        have hfl := hI.inflight_eq
        omega
      · dsimp only
        rw [finCount_update_eq s.pc i PC.working
          (fun j p => recordedAt p && P.okAt j) (by rw [hpc]; rfl)]
        exact hI.completed_eq
      · dsimp only
        rw [finCount_update_eq s.pc i PC.working
          (fun j p => recordedAt p && !(P.okAt j)) (by rw [hpc]; rfl)]
        exact hI.failed_eq
      · dsimp only
        rw [finSum_update_eq s.pc i PC.working
          (fun j p => recordedAt p && P.okAt j) P.costAt (by rw [hpc]; rfl)]
        exact hI.cost_eq
      · dsimp only
        rw [finSum_update_eq s.pc i PC.working
          (fun j p => recordedAt p && P.okAt j) P.ptAt (by rw [hpc]; rfl)]
        exact hI.inTok_eq
      · dsimp only
        rw [finSum_update_eq s.pc i PC.working
          (fun j p => recordedAt p && P.okAt j) P.ctAt (by rw [hpc]; rfl)]
        exact hI.outTok_eq
      · exact CsvInv_of_eq hI.csv_inv rfl rfl (cond_update P.okAt pastCsv (by rw [hpc]; rfl))
      · exact DumpInv_of_eq hI.dump_inv rfl (cond_update P.emptyAt pastDump (by rw [hpc]; rfl))
      · intro hsd2
        exact update_no_abandon (hI.no_abandon hsd2) (by decide)
  | plainFail i hpc hres =>
      have hok := okAt_false_of_plainFail P i hres
      have hemp := emptyAt_false_of_plainFail P i hres
      refine ⟨?_, ?_, ?_, ?_, ?_, ?_, ?_, ?_, ?_, ?_⟩
      · dsimp only
        rw [finCount_update_eq s.pc i PC.exiting (fun _ p => holdsSlot p) (by rw [hpc]; rfl)]
        exact hI.sem_total
      · dsimp only
        have hc : finCount (fun j => inFlightAt (Function.update s.pc i PC.exiting j)) + 1
            = finCount (fun j => inFlightAt (s.pc j)) :=
          finCount_update_decr s.pc i PC.exiting (fun _ p => inFlightAt p)
            (by rw [hpc]; rfl) rfl
        have hfl := hI.inflight_eq
        omega
      · dsimp only
        rw [finCount_update_eq s.pc i PC.exiting
          (fun j p => recordedAt p && P.okAt j) (by simp [hpc, hok, recordedAt])]
        exact hI.completed_eq
      · dsimp only
        rw [finCount_update_incr s.pc i PC.exiting
          (fun j p => recordedAt p && !(P.okAt j)) (by rw [hpc]; rfl) (by simp [hok, recordedAt])]
        rw [hI.failed_eq]
      · dsimp only
        rw [finSum_update_eq s.pc i PC.exiting
          (fun j p => recordedAt p && P.okAt j) P.costAt (by simp [hpc, hok, recordedAt])]
        exact hI.cost_eq
      · dsimp only
        rw [finSum_update_eq s.pc i PC.exiting
          (fun j p => recordedAt p && P.okAt j) P.ptAt (by simp [hpc, hok, recordedAt])]
        exact hI.inTok_eq
      · dsimp only
        rw [finSum_update_eq s.pc i PC.exiting
          (fun j p => recordedAt p && P.okAt j) P.ctAt (by simp [hpc, hok, recordedAt])]
        exact hI.outTok_eq
      · exact CsvInv_of_eq hI.csv_inv rfl rfl (cond_update_notok P.okAt pastCsv hok)
      · exact DumpInv_of_eq hI.dump_inv rfl (cond_update_notok P.emptyAt pastDump hemp)
      · intro hsd2
        exact update_no_abandon (hI.no_abandon hsd2) (by decide)
  | dumpDebug i raw hpc hres =>
      have hemp := emptyAt_true_of_emptyRes P i raw hres
      refine ⟨?_, ?_, ?_, ?_, ?_, ?_, ?_, ?_, ?_, ?_⟩
      · dsimp only
        rw [finCount_update_eq s.pc i PC.dumped (fun _ p => holdsSlot p) (by rw [hpc]; rfl)]
        exact hI.sem_total
      · dsimp only
        rw [finCount_update_eq s.pc i PC.dumped (fun _ p => inFlightAt p) (by rw [hpc]; rfl)]
        exact hI.inflight_eq
      · dsimp only
        rw [finCount_update_eq s.pc i PC.dumped
          (fun j p => recordedAt p && P.okAt j) (by rw [hpc]; rfl)]
        exact hI.completed_eq
      · dsimp only
        rw [finCount_update_eq s.pc i PC.dumped
          (fun j p => recordedAt p && !(P.okAt j)) (by rw [hpc]; rfl)]
        exact hI.failed_eq
      · dsimp only
        rw [finSum_update_eq s.pc i PC.dumped
          (fun j p => recordedAt p && P.okAt j) P.costAt (by rw [hpc]; rfl)]
        exact hI.cost_eq
      · dsimp only
        rw [finSum_update_eq s.pc i PC.dumped
          (fun j p => recordedAt p && P.okAt j) P.ptAt (by rw [hpc]; rfl)]
        exact hI.inTok_eq
      · dsimp only
        rw [finSum_update_eq s.pc i PC.dumped
          (fun j p => recordedAt p && P.okAt j) P.ctAt (by rw [hpc]; rfl)]
        exact hI.outTok_eq
      · exact CsvInv_of_eq hI.csv_inv rfl rfl (cond_update P.okAt pastCsv (by rw [hpc]; rfl))
      · obtain ⟨l, hl1, hl2, hl3⟩ := hI.dump_inv
        have hni : i ∉ l := by
          intro hin
          have hcontra := (hl3 i).mp hin
          rw [hpc] at hcontra
          simp [pastDump] at hcontra
        refine ⟨l ++ [i], ?_, nodup_append_single hl2 hni, ?_⟩
        · dsimp only
          rw [hl1, List.map_append]
          simp [rawAt_of_emptyRes P i raw hres]
        · intro j
          rcases eq_or_ne j i with rfl | hne
          · dsimp only
            rw [Function.update_same]
            simp [hemp, pastDump]
          · dsimp only
            rw [Function.update_noteq hne, mem_append_single_of_ne hne]
            exact hl3 j
      · intro hsd2
        exact update_no_abandon (hI.no_abandon hsd2) (by decide)
  | emptyFail i raw hpc hres =>
      have hok := okAt_false_of_emptyRes P i raw hres
      refine ⟨?_, ?_, ?_, ?_, ?_, ?_, ?_, ?_, ?_, ?_⟩
      · dsimp only
        rw [finCount_update_eq s.pc i PC.exiting (fun _ p => holdsSlot p) (by rw [hpc]; rfl)]
        exact hI.sem_total
      · dsimp only
        have hc : finCount (fun j => inFlightAt (Function.update s.pc i PC.exiting j)) + 1
            = finCount (fun j => inFlightAt (s.pc j)) :=
          finCount_update_decr s.pc i PC.exiting (fun _ p => inFlightAt p)
            (by rw [hpc]; rfl) rfl
        have hfl := hI.inflight_eq
        omega
      · dsimp only
        rw [finCount_update_eq s.pc i PC.exiting
          (fun j p => recordedAt p && P.okAt j) (by simp [hpc, hok, recordedAt])]
        exact hI.completed_eq
      · dsimp only
        rw [finCount_update_incr s.pc i PC.exiting
          (fun j p => recordedAt p && !(P.okAt j)) (by rw [hpc]; rfl) (by simp [hok, recordedAt])]
        rw [hI.failed_eq]
      · dsimp only
        rw [finSum_update_eq s.pc i PC.exiting
          (fun j p => recordedAt p && P.okAt j) P.costAt (by simp [hpc, hok, recordedAt])]
        exact hI.cost_eq
      · dsimp only
        rw [finSum_update_eq s.pc i PC.exiting
          (fun j p => recordedAt p && P.okAt j) P.ptAt (by simp [hpc, hok, recordedAt])]
        exact hI.inTok_eq
      · dsimp only
        rw [finSum_update_eq s.pc i PC.exiting
          (fun j p => recordedAt p && P.okAt j) P.ctAt (by simp [hpc, hok, recordedAt])]
        exact hI.outTok_eq
      · exact CsvInv_of_eq hI.csv_inv rfl rfl (cond_update_notok P.okAt pastCsv hok)
      · exact DumpInv_of_eq hI.dump_inv rfl (cond_update P.emptyAt pastDump (by rw [hpc]; rfl))
      · intro hsd2
        exact update_no_abandon (hI.no_abandon hsd2) (by decide)
  | writeCsv i row u hpc hres =>
      have hok := okAt_true_of_okRes P i row u hres
      have hrow := rowAt_of_okRes P i row u hres
      refine ⟨?_, ?_, ?_, ?_, ?_, ?_, ?_, ?_, ?_, ?_⟩
      · dsimp only
        rw [finCount_update_eq s.pc i PC.csvWritten (fun _ p => holdsSlot p) (by rw [hpc]; rfl)]
        exact hI.sem_total
      · dsimp only
        rw [finCount_update_eq s.pc i PC.csvWritten (fun _ p => inFlightAt p) (by rw [hpc]; rfl)]
        exact hI.inflight_eq
      · dsimp only
        rw [finCount_update_eq s.pc i PC.csvWritten
          (fun j p => recordedAt p && P.okAt j) (by rw [hpc]; rfl)]
        exact hI.completed_eq
      · dsimp only
        rw [finCount_update_eq s.pc i PC.csvWritten
          (fun j p => recordedAt p && !(P.okAt j)) (by rw [hpc]; rfl)]
        exact hI.failed_eq
      · dsimp only
        rw [finSum_update_eq s.pc i PC.csvWritten
          (fun j p => recordedAt p && P.okAt j) P.costAt (by rw [hpc]; rfl)]
        exact hI.cost_eq
      · dsimp only
        rw [finSum_update_eq s.pc i PC.csvWritten
          (fun j p => recordedAt p && P.okAt j) P.ptAt (by rw [hpc]; rfl)]
        exact hI.inTok_eq
      · dsimp only
        rw [finSum_update_eq s.pc i PC.csvWritten
          (fun j p => recordedAt p && P.okAt j) P.ctAt (by rw [hpc]; rfl)]
        exact hI.outTok_eq
      · constructor
        · intro hcontra
          simp at hcontra
        · intro _
          by_cases hinit : s.csv_file_initialized
          · obtain ⟨l, hl1, hlne, hl2, hl3⟩ := hI.csv_inv.2 hinit
            have hni : i ∉ l := by
              intro hin
              have hcontra := (hl3 i).mp hin
              rw [hpc] at hcontra
              simp [pastCsv] at hcontra
            refine ⟨l ++ [i], ?_, by simp, nodup_append_single hl2 hni, ?_⟩
            · dsimp only
              rw [if_pos hinit, hl1, List.map_append]
              simp [hrow]
            · intro j
              rcases eq_or_ne j i with rfl | hne
              · dsimp only
                rw [Function.update_same]
                simp [hok, pastCsv]
              · dsimp only
                rw [Function.update_noteq hne, mem_append_single_of_ne hne]
                exact hl3 j
          · have hinit2 : s.csv_file_initialized = false := by
              simpa using hinit
            obtain ⟨hempty, hnone⟩ := hI.csv_inv.1 hinit2
            refine ⟨[i], ?_, by simp, List.nodup_singleton i, ?_⟩
            · dsimp only
              rw [if_neg hinit]
              simp [hrow]
            · intro j
              rcases eq_or_ne j i with rfl | hne
              · dsimp only
                rw [Function.update_same]
                simp [hok, pastCsv]
              · dsimp only
                rw [Function.update_noteq hne]
                simp only [List.mem_singleton]
                constructor
                · intro hcon
                  exact absurd hcon hne
                · intro hcon
                  exact absurd hcon (hnone j)
      · exact DumpInv_of_eq hI.dump_inv rfl (cond_update P.emptyAt pastDump (by rw [hpc]; rfl))
      · intro hsd2
        exact update_no_abandon (hI.no_abandon hsd2) (by decide)
  | recordOk i row u hpc hres =>
      have hok := okAt_true_of_okRes P i row u hres
      have hemp := emptyAt_false_of_okRes P i row u hres
      refine ⟨?_, ?_, ?_, ?_, ?_, ?_, ?_, ?_, ?_, ?_⟩
      · dsimp only
        rw [finCount_update_eq s.pc i PC.exiting (fun _ p => holdsSlot p) (by rw [hpc]; rfl)]
        exact hI.sem_total
      · dsimp only
        have hc : finCount (fun j => inFlightAt (Function.update s.pc i PC.exiting j)) + 1
            = finCount (fun j => inFlightAt (s.pc j)) :=
          finCount_update_decr s.pc i PC.exiting (fun _ p => inFlightAt p)
            (by rw [hpc]; rfl) rfl
        have hfl := hI.inflight_eq
        omega
      · dsimp only
        rw [finCount_update_incr s.pc i PC.exiting
          (fun j p => recordedAt p && P.okAt j) (by rw [hpc]; rfl) (by simp [hok, recordedAt])]
        rw [hI.completed_eq]
      · dsimp only
        rw [finCount_update_eq s.pc i PC.exiting
          (fun j p => recordedAt p && !(P.okAt j)) (by simp [hpc, hok, recordedAt])]
        exact hI.failed_eq
      · dsimp only
        rw [finSum_update_incr s.pc i PC.exiting
          (fun j p => recordedAt p && P.okAt j) P.costAt (by rw [hpc]; rfl) (by simp [hok, recordedAt])]
        rw [hI.cost_eq, costAt_of_okRes P i row u hres]
      · dsimp only
        rw [finSum_update_incr s.pc i PC.exiting
          (fun j p => recordedAt p && P.okAt j) P.ptAt (by rw [hpc]; rfl) (by simp [hok, recordedAt])]
        rw [hI.inTok_eq, ptAt_of_okRes P i row u hres]
      · dsimp only
        rw [finSum_update_incr s.pc i PC.exiting
          (fun j p => recordedAt p && P.okAt j) P.ctAt (by rw [hpc]; rfl) (by simp [hok, recordedAt])]
        rw [hI.outTok_eq, ctAt_of_okRes P i row u hres]
      · exact CsvInv_of_eq hI.csv_inv rfl rfl (cond_update P.okAt pastCsv (by rw [hpc]; rfl))
      · exact DumpInv_of_eq hI.dump_inv rfl (cond_update_notok P.emptyAt pastDump hemp)
      · intro hsd2
        exact update_no_abandon (hI.no_abandon hsd2) (by decide)
  | releaseSlot i hpc =>
      refine ⟨?_, ?_, ?_, ?_, ?_, ?_, ?_, ?_, ?_, ?_⟩
      · dsimp only
        have hc : finCount (fun j => holdsSlot (Function.update s.pc i PC.finished j)) + 1
            = finCount (fun j => holdsSlot (s.pc j)) :=
          finCount_update_decr s.pc i PC.finished (fun _ p => holdsSlot p)
            (by rw [hpc]; rfl) rfl
        have h50 := hI.sem_total
        omega
      · dsimp only
        rw [finCount_update_eq s.pc i PC.finished (fun _ p => inFlightAt p) (by rw [hpc]; rfl)]
        exact hI.inflight_eq
      · dsimp only
        rw [finCount_update_eq s.pc i PC.finished
          (fun j p => recordedAt p && P.okAt j) (by rw [hpc]; rfl)]
        exact hI.completed_eq
      · dsimp only
        rw [finCount_update_eq s.pc i PC.finished
          (fun j p => recordedAt p && !(P.okAt j)) (by rw [hpc]; rfl)]
        exact hI.failed_eq
      · dsimp only
        rw [finSum_update_eq s.pc i PC.finished
          (fun j p => recordedAt p && P.okAt j) P.costAt (by rw [hpc]; rfl)]
        exact hI.cost_eq
      · dsimp only
        rw [finSum_update_eq s.pc i PC.finished
          (fun j p => recordedAt p && P.okAt j) P.ptAt (by rw [hpc]; rfl)]
        exact hI.inTok_eq
      · dsimp only
        rw [finSum_update_eq s.pc i PC.finished
          (fun j p => recordedAt p && P.okAt j) P.ctAt (by rw [hpc]; rfl)]
        exact hI.outTok_eq
      · exact CsvInv_of_eq hI.csv_inv rfl rfl (cond_update P.okAt pastCsv (by rw [hpc]; rfl))
      · exact DumpInv_of_eq hI.dump_inv rfl (cond_update P.emptyAt pastDump (by rw [hpc]; rfl))
      · intro hsd2
        exact update_no_abandon (hI.no_abandon hsd2) (by decide)

theorem reach_inv {n : Nat} {P : RunParams n} {s : GState n} (h : Reach P s) :
    RunInv P s := by
  induction h with
  | refl => exact runInv_init P
  | tail _ hstep ih => exact runInv_step ih hstep

theorem finCount_all {n : Nat} (q : Fin n → Bool) (h : ∀ i, q i = true) :
    finCount q = n := by
  classical
  unfold finCount
  have huniv : Finset.univ.filter (fun i : Fin n => q i = true) = Finset.univ := by
    ext i
    simp [h i]
  rw [huniv, Finset.card_univ, Fintype.card_fin]

theorem finCount_congr {n : Nat} (q r : Fin n → Bool) (h : ∀ i, q i = r i) :
    finCount q = finCount r := by
  have hqr : q = r := funext h
  rw [hqr]

theorem terminal_cases {p : PC} (h : terminalPC p = true) :
    p = PC.finished ∨ p = PC.abandoned := by
  cases p <;> simp_all [terminalPC]

/-- Along any step, the two outcome counters never decrease. -/
theorem step_counts_mono {n : Nat} {P : RunParams n} {s s2 : GState n}
    (hs : Step P s s2) :
    s.completed ≤ s2.completed ∧ s.failed ≤ s2.failed := by
  cases hs <;> dsimp only <;> omega

/-- The shutdown flag is only ever set, never cleared. -/
theorem step_shutdown_mono {n : Nat} {P : RunParams n} {s s2 : GState n}
    (hs : Step P s s2) (h : s.shutdown = true) : s2.shutdown = true := by
  cases hs <;> dsimp only <;> assumption

theorem pastAdmission_update {n : Nat} {pc : Fin n → PC} {i0 : Fin n} {v w : PC}
    {i : Fin n} (h : pastAdmission (pc i) = true) (hsrc : pc i0 = w)
    (himp : pastAdmission w = true → pastAdmission v = true) :
    pastAdmission (Function.update pc i0 v i) = true := by
  rcases eq_or_ne i i0 with rfl | hne
  · rw [Function.update_same]
    rw [hsrc] at h
    exact himp h
  · rw [Function.update_noteq hne]
    exact h

/-- A task past admission stays past admission. -/
theorem pastAdmission_mono {n : Nat} {P : RunParams n} {s s2 : GState n}
    (hs : Step P s s2) (i : Fin n) (h : pastAdmission (s.pc i) = true) :
    pastAdmission (s2.pc i) = true := by
  cases hs with
  | cancelRun h2 => exact h
  | skipEarly i0 hpc hsd => exact pastAdmission_update h hpc (by decide)
  | enterBody i0 hpc hsd => exact pastAdmission_update h hpc (by decide)
  | acquireSlot i0 hpc hsem => exact pastAdmission_update h hpc (by decide)
  | skipLate i0 hpc hsd => exact pastAdmission_update h hpc (by decide)
  | passCheck i0 hpc hsd => exact pastAdmission_update h hpc (by decide)
  | incrFlight i0 hpc => exact pastAdmission_update h hpc (by decide)
  | plainFail i0 hpc hres => exact pastAdmission_update h hpc (by decide)
  | dumpDebug i0 raw hpc hres => exact pastAdmission_update h hpc (by decide)
  | emptyFail i0 raw hpc hres => exact pastAdmission_update h hpc (by decide)
  | writeCsv i0 row u hpc hres => exact pastAdmission_update h hpc (by decide)
  | recordOk i0 row u hpc hres => exact pastAdmission_update h hpc (by decide)
  | releaseSlot i0 hpc => exact pastAdmission_update h hpc (by decide)

theorem notPastAdmission_update {n : Nat} {pc : Fin n → PC} {i0 : Fin n} {v w : PC}
    {i : Fin n} (h : pastAdmission (pc i) = false) (hsrc : pc i0 = w)
    (himp : pastAdmission w = false → pastAdmission v = false) :
    pastAdmission (Function.update pc i0 v i) = false := by
  rcases eq_or_ne i i0 with rfl | hne
  · rw [Function.update_same]
    rw [hsrc] at h
    exact himp h
  · rw [Function.update_noteq hne]
    exact h

/-- Once the shutdown flag is set, no further task passes admission:
the only transition into the admitted family (line 123 falling through)
requires the flag to be unset. -/
theorem notPastAdmission_mono {n : Nat} {P : RunParams n} {s s2 : GState n}
    (hs : Step P s s2) (hshut : s.shutdown = true) (i : Fin n)
    (h : pastAdmission (s.pc i) = false) : pastAdmission (s2.pc i) = false := by
  cases hs with
  | cancelRun h2 => exact h
  | skipEarly i0 hpc hsd => exact notPastAdmission_update h hpc (by decide)
  | enterBody i0 hpc hsd =>
      rw [hsd] at hshut
      cases hshut
  | acquireSlot i0 hpc hsem => exact notPastAdmission_update h hpc (by decide)
  | skipLate i0 hpc hsd => exact notPastAdmission_update h hpc (by decide)
  | passCheck i0 hpc hsd =>
      rw [hsd] at hshut
      cases hshut
  | incrFlight i0 hpc => exact notPastAdmission_update h hpc (by decide)
  | plainFail i0 hpc hres => exact notPastAdmission_update h hpc (by decide)
  | dumpDebug i0 raw hpc hres => exact notPastAdmission_update h hpc (by decide)
  | emptyFail i0 raw hpc hres => exact notPastAdmission_update h hpc (by decide)
  | writeCsv i0 row u hpc hres => exact notPastAdmission_update h hpc (by decide)
  | recordOk i0 row u hpc hres => exact notPastAdmission_update h hpc (by decide)
  | releaseSlot i0 hpc => exact notPastAdmission_update h hpc (by decide)

/-- After cancellation, each task's admission status is frozen. -/
theorem pastAdmission_frozen {n : Nat} {P : RunParams n} {s0 s : GState n}
    (h : Relation.ReflTransGen (Step P) s0 s)
    (hshut : s0.shutdown = true) :
    s.shutdown = true ∧ ∀ i, pastAdmission (s.pc i) = pastAdmission (s0.pc i) := by
  induction h with
  | refl => exact ⟨hshut, fun _ => rfl⟩
  | tail _ hstep ih =>
      obtain ⟨ihsd, ihpc⟩ := ih
      refine ⟨step_shutdown_mono hstep ihsd, fun i => ?_⟩
      cases hv : pastAdmission (s0.pc i) with
      | true =>
          exact pastAdmission_mono hstep i ((ihpc i).trans hv)
      | false =>
          exact notPastAdmission_mono hstep ihsd i ((ihpc i).trans hv)

theorem inFlightAt_implies_holdsSlot (p : PC) (h : inFlightAt p = true) :
    holdsSlot p = true := by
  cases p <;> simp_all [inFlightAt, holdsSlot]

/-- C1: with no cancellation, once every task has settled, each of the N
tasks has recorded exactly one outcome: `completed` counts exactly the
successful tasks, `failed` exactly the unsuccessful ones, and their sum
is N. -/
theorem C1_settled_counts_total {n : Nat} {P : RunParams n} {s : GState n}
    (h : Reach P s) (hset : Settled s) (hnc : s.shutdown = false) :
    s.completed + s.failed = n ∧
    s.completed = finCount (fun i => P.okAt i) ∧
    s.failed = finCount (fun i => !(P.okAt i)) := by
  have hI := reach_inv h
  have hfin : ∀ i, s.pc i = PC.finished := by
    intro i
    rcases terminal_cases (hset i) with hf | ha
    · exact hf
    · exact absurd ha (hI.no_abandon hnc i)
  have hrec : ∀ i, recordedAt (s.pc i) = true := by
    intro i
    rw [hfin i]
    rfl
  refine ⟨?_, ?_, ?_⟩
  · rw [hI.completed_eq, hI.failed_eq, finCount_split]
    exact finCount_all _ hrec
  · rw [hI.completed_eq]
    apply finCount_congr
    intro i
    rw [hrec i, Bool.true_and]
  · rw [hI.failed_eq]
    apply finCount_congr
    intro i
    rw [hrec i, Bool.true_and]

/-- C2: at every reachable state, `in_flight` lies between 0 and the
concurrency cap 50, `completed + failed` never exceeds N, and along any
step it never decreases. -/
theorem C2_in_flight_bounds {n : Nat} {P : RunParams n} {s : GState n}
    (h : Reach P s) :
    0 ≤ s.in_flight ∧ s.in_flight ≤ 50 ∧ s.completed + s.failed ≤ n ∧
    ∀ s2 : GState n, Step P s s2 →
      s.completed + s.failed ≤ s2.completed + s2.failed ∧
      s2.completed + s2.failed ≤ n := by
  have hI := reach_inv h
  have hb := hI.inflight_eq
  have hle : finCount (fun i => inFlightAt (s.pc i))
      ≤ finCount (fun i => holdsSlot (s.pc i)) :=
    finCount_mono _ _ (fun i hi => inFlightAt_implies_holdsSlot _ hi)
  have h50 := hI.sem_total
  have hcf : s.completed + s.failed ≤ n := by
    rw [hI.completed_eq, hI.failed_eq, finCount_split]
    exact finCount_le _
  refine ⟨by omega, by omega, hcf, ?_⟩
  intro s2 hstep
  have hm := step_counts_mono hstep
  have hI2 := reach_inv (Relation.ReflTransGen.tail h hstep)
  have hcf2 : s2.completed + s2.failed ≤ n := by
    rw [hI2.completed_eq, hI2.failed_eq, finCount_split]
    exact finCount_le _
  exact ⟨by omega, hcf2⟩

theorem buildResultRow_batch_id (sf : String) (bid : Nat) (v : JsonVal) (r : ResultRow)
    (h : buildResultRow sf bid v = Except.ok r) : r.batch_id = bid := by
  cases v with
  | arr elems =>
      cases elems with
      | nil =>
          simp [buildResultRow] at h
          rw [← h]
      | cons hd tl =>
          cases hd <;> simp [buildResultRow] at h <;> rw [← h]
  | obj fs => simp [buildResultRow] at h
  | str s2 => simp [buildResultRow] at h
  | num q => simp [buildResultRow] at h
  | bool b => simp [buildResultRow] at h
  | nullV => simp [buildResultRow] at h

/-- Every row a task hands to the CSV writer (whether the write succeeds
or raises) carries that task's `batch_id` (batch_processor.py line 250). -/
theorem taskRes_okRes_batch_id {n : Nat} (P : RunParams n) (i : Fin n)
    (row : ResultRow) (u : ApiUsage) (h : P.taskRes i = TaskResult.okRes row u) :
    row.batch_id = i.val := by
  unfold RunParams.taskRes at h
  split at h
  · cases h
  · split at h
    · cases h
    · cases h
    · cases h
    · split at h
      · cases h
      · rename_i hbr
        split at h
        · cases h
          exact buildResultRow_batch_id _ _ _ _ hbr
        · cases h

theorem taskRes_sinkFail_batch_id {n : Nat} (P : RunParams n) (i : Fin n)
    (row : ResultRow) (u : ApiUsage) (h : P.taskRes i = TaskResult.sinkFail row u) :
    row.batch_id = i.val := by
  unfold RunParams.taskRes at h
  split at h
  · cases h
  · split at h
    · cases h
    · cases h
    · cases h
    · split at h
      · cases h
      · rename_i hbr
        split at h
        · cases h
        · cases h
          exact buildResultRow_batch_id _ _ _ _ hbr

theorem length_eq_finCount {n : Nat} (l : List (Fin n)) (q : Fin n → Bool)
    (hnd : l.Nodup) (hmem : ∀ i, i ∈ l ↔ q i = true) : l.length = finCount q := by
  classical
  rw [← List.toFinset_card_of_nodup hnd]
  unfold finCount
  congr 1
  ext i
  simp [hmem i]

theorem recordedAt_implies_pastAdmission (p : PC) (h : recordedAt p = true) :
    pastAdmission p = true := by
  cases p <;> simp_all [recordedAt, pastAdmission]

/-- C3: after the coordinator settles, the output CSV is empty when no
item completed, and otherwise consists of exactly one header line (at the
head, never repeated) followed by exactly `completed` data rows, one per
successful task, each carrying its task's unique `batch_id`. -/
theorem C3_csv_structure {n : Nat} {P : RunParams n} {s : GState n}
    (h : Reach P s) (hset : Settled s) :
    (s.completed = 0 → s.csv = []) ∧
    (0 < s.completed → ∃ l : List (Fin n),
      s.csv = CsvRow.header :: l.map (fun i => CsvRow.data (P.rowAt i)) ∧
      l.length = s.completed ∧ l.Nodup ∧
      (∀ i ∈ l, P.okAt i = true ∧ (P.rowAt i).batch_id = i.val) ∧
      (l.map (fun i => (P.rowAt i).batch_id)).Nodup) := by
  have hI := reach_inv h
  have hcond : ∀ i : Fin n,
      (P.okAt i = true ∧ pastCsv (s.pc i) = true)
        ↔ (recordedAt (s.pc i) && P.okAt i) = true := by
    intro i
    rcases terminal_cases (hset i) with hf | ha
    · rw [hf]
      simp [pastCsv, recordedAt]
    · rw [ha]
      simp [pastCsv, recordedAt]
  cases hinit : s.csv_file_initialized with
  | false =>
      obtain ⟨hempty, hnone⟩ := hI.csv_inv.1 hinit
      have hzero : s.completed = 0 := by
        rw [hI.completed_eq]
        apply finCount_zero
        intro i
        cases hq : (recordedAt (s.pc i) && P.okAt i) with
        | false => rfl
        | true =>
            exfalso
            exact hnone i ((hcond i).mpr hq)
      refine ⟨fun _ => hempty, fun hpos => ?_⟩
      rw [hzero] at hpos
      exact absurd hpos (by omega)
  | true =>
      obtain ⟨l, hl1, hlne, hl2, hl3⟩ := hI.csv_inv.2 hinit
      have hmem : ∀ i, i ∈ l ↔ (recordedAt (s.pc i) && P.okAt i) = true :=
        fun i => (hl3 i).trans (hcond i)
      have hlen : l.length = s.completed := by
        rw [hI.completed_eq]
        exact length_eq_finCount l _ hl2 hmem
      have hok : ∀ i ∈ l, P.okAt i = true := by
        intro i hi
        have hq := (hmem i).mp hi
        exact (Bool.and_eq_true _ _ |>.mp hq).2
      have hbid : ∀ i ∈ l, (P.rowAt i).batch_id = i.val := by
        intro i hi
        have hoki := hok i hi
        unfold RunParams.okAt TaskResult.isOk at hoki
        cases hres : P.taskRes i with
        | okRes row u =>
            rw [rowAt_of_okRes P i row u hres]
            exact taskRes_okRes_batch_id P i row u hres
        | exnFail => rw [hres] at hoki; cases hoki
        | parseFail => rw [hres] at hoki; cases hoki
        | emptyRes raw => rw [hres] at hoki; cases hoki
        | sinkFail row u => rw [hres] at hoki; cases hoki
      refine ⟨fun hzero => ?_, fun _ => ⟨l, hl1, hlen, hl2,
        fun i hi => ⟨hok i hi, hbid i hi⟩, ?_⟩⟩
      · exfalso
        rw [hzero] at hlen
        exact hlne (List.length_eq_zero.mp hlen)
      · have hmapeq : l.map (fun i => (P.rowAt i).batch_id)
            = l.map (fun i => i.val) := by
          apply List.map_congr_left
          intro i hi
          exact hbid i hi
        rw [hmapeq]
        exact hl2.map (fun a b hab => Fin.val_injective hab)

/-- C4: the cost of a successful work item is
`prompt_tokens/1e6 * input_rate + completion_tokens/1e6 * output_rate`
under the pricing row for the run's model, 0 when no pricing row exists,
and the total cost after settlement is the sum of exactly the successful
items' costs. -/
theorem C4_cost_formula_sum {n : Nat} {P : RunParams n} {s : GState n}
    (h : Reach P s) (hset : Settled s) :
    (∀ r, pricingLookup P.pricing P.modelName = some r → ∀ pt ct,
      tokenCost P.pricing P.modelName pt ct
        = ((pt : ℚ) / 1000000) * r.inputCostPerMillion
          + ((ct : ℚ) / 1000000) * r.outputCostPerMillion) ∧
    (pricingLookup P.pricing P.modelName = none →
      ∀ pt ct, tokenCost P.pricing P.modelName pt ct = 0) ∧
    s.total_cost = finSum (fun i => recordedAt (s.pc i) && P.okAt i) P.costAt ∧
    (∀ i, P.okAt i = true →
      P.costAt i = tokenCost P.pricing P.modelName (P.ptAt i) (P.ctAt i)) ∧
    (∀ i, P.okAt i = false → P.costAt i = 0) := by
  have hI := reach_inv h
  refine ⟨?_, ?_, hI.cost_eq, ?_, ?_⟩
  · intro r hr pt ct
    unfold tokenCost
    rw [hr]
  · intro hr pt ct
    unfold tokenCost
    rw [hr]
  · intro i hok
    unfold RunParams.okAt TaskResult.isOk at hok
    cases hres : P.taskRes i with
    | okRes row u =>
        rw [costAt_of_okRes P i row u hres, ptAt_of_okRes P i row u hres,
          ctAt_of_okRes P i row u hres]
    | exnFail => rw [hres] at hok; cases hok
    | parseFail => rw [hres] at hok; cases hok
    | emptyRes raw => rw [hres] at hok; cases hok
    | sinkFail row u => rw [hres] at hok; cases hok
  · intro i hok
    unfold RunParams.okAt TaskResult.isOk at hok
    unfold RunParams.costAt
    cases hres : P.taskRes i with
    | okRes row u => rw [hres] at hok; cases hok
    | exnFail => rfl
    | parseFail => rfl
    | emptyRes raw => rfl
    | sinkFail row u => rfl

/-- C5: once the shutdown flag is set, tasks not yet past admission end
abandoned (dispatching nothing and recording no outcome), tasks already
past admission run to completion, the final `completed + failed` is
bounded by the number of tasks admitted at cancellation time, and the
coordinator still settles and produces the full summary. -/
theorem C5_cancellation {n : Nat} {P : RunParams n} {s0 s : GState n}
    (h0 : Reach P s0) (hc : s0.shutdown = true)
    (h : Relation.ReflTransGen (Step P) s0 s) (hset : Settled s) :
    s.completed + s.failed ≤ finCount (fun i => pastAdmission (s0.pc i)) ∧
    (∀ i, pastAdmission (s0.pc i) = false → s.pc i = PC.abandoned) ∧
    (∀ i, pastAdmission (s0.pc i) = true → s.pc i = PC.finished) ∧
    s.completed = finCount (fun i => recordedAt (s.pc i) && P.okAt i) ∧
    s.failed = finCount (fun i => recordedAt (s.pc i) && !(P.okAt i)) ∧
    summaryOf s = ⟨n, s.completed, s.failed, s.total_cost,
      s.total_input_tokens, s.total_output_tokens⟩ := by
  have hreach : Reach P s := Relation.ReflTransGen.trans h0 h
  have hI := reach_inv hreach
  obtain ⟨hsd, hfroz⟩ := pastAdmission_frozen h hc
  have hle : s.completed + s.failed ≤ finCount (fun i => pastAdmission (s.pc i)) := by
    rw [hI.completed_eq, hI.failed_eq, finCount_split]
    apply finCount_mono
    intro i hi
    exact recordedAt_implies_pastAdmission _ hi
  have hcount : finCount (fun i => pastAdmission (s.pc i))
      = finCount (fun i => pastAdmission (s0.pc i)) :=
    finCount_congr _ _ hfroz
  refine ⟨by omega, ?_, ?_, hI.completed_eq, hI.failed_eq, rfl⟩
  · intro i hnp
    rcases terminal_cases (hset i) with hf | ha
    · exfalso
      have hfr := hfroz i
      rw [hf, hnp] at hfr
      cases hfr
    · exact ha
  · intro i hp
    rcases terminal_cases (hset i) with hf | ha
    · exact hf
    · exfalso
      have hfr := hfroz i
      rw [ha, hp] at hfr
      cases hfr

theorem rowAt_batch_id_of_ok {n : Nat} (P : RunParams n) (j : Fin n)
    (h : P.okAt j = true) : (P.rowAt j).batch_id = j.val := by
  unfold RunParams.okAt TaskResult.isOk at h
  cases hres : P.taskRes j with
  | okRes row u =>
      rw [rowAt_of_okRes P j row u hres]
      exact taskRes_okRes_batch_id P j row u hres
  | exnFail => rw [hres] at h; cases h
  | parseFail => rw [hres] at h; cases h
  | emptyRes raw => rw [hres] at h; cases h
  | sinkFail row u => rw [hres] at h; cases h

/-- C8: a non-parsing response is classified as a parse failure, a parsed
response with a falsy `results` field as the distinct empty-results
failure; the latter and only the latter leaves a debug dump, recording the
full outbound messages, the response schema and the raw content keyed by
the item id; both kinds count the item as failed while every other task
still settles and records its own outcome. -/
theorem C8_failure_classification {n : Nat} {P : RunParams n} {s : GState n}
    (h : Reach P s) (hset : Settled s) :
    (∀ c, P.jsonLoads c = none →
      classifyResponse P.jsonLoads c = RespClass.parseFailure) ∧
    (∀ c d results, P.jsonLoads c = some d → dictGetResults d = Except.ok results →
      pyFalsy results = true →
      classifyResponse P.jsonLoads c = RespClass.emptyResults) ∧
    (∀ i, P.taskRes i = TaskResult.parseFail →
      P.okAt i = false ∧ P.emptyAt i = false) ∧
    (∀ i raw, P.taskRes i = TaskResult.emptyRes raw →
      P.okAt i = false ∧ P.emptyAt i = true) ∧
    s.failed = finCount (fun i => recordedAt (s.pc i) && !(P.okAt i)) ∧
    s.completed + s.failed = finCount (fun i => recordedAt (s.pc i)) ∧
    (∃ l : List (Fin n), s.dumps = l.map (fun i => mkDump P i (P.rawAt i)) ∧
      l.Nodup ∧
      ∀ i, i ∈ l ↔ (P.emptyAt i = true ∧ recordedAt (s.pc i) = true)) ∧
    (∀ i, mkDump P i (P.rawAt i)
      = ⟨i.val, buildMessages P.jdump (P.items i), (P.items i).responseFormat,
          P.rawAt i⟩) := by
  have hI := reach_inv h
  refine ⟨?_, ?_, ?_, ?_, hI.failed_eq, ?_, ?_, fun i => rfl⟩
  · intro c hc
    unfold classifyResponse
    rw [hc]
  · intro c d results hc hd hf
    simp [classifyResponse, hc, hd, hf]
  · intro i hres
    constructor
    · unfold RunParams.okAt TaskResult.isOk
      rw [hres]
    · unfold RunParams.emptyAt
      rw [hres]
  · intro i raw hres
    constructor
    · exact okAt_false_of_emptyRes P i raw hres
    · exact emptyAt_true_of_emptyRes P i raw hres
  · rw [hI.completed_eq, hI.failed_eq, finCount_split]
  · obtain ⟨l, hl1, hl2, hl3⟩ := hI.dump_inv
    refine ⟨l, hl1, hl2, fun i => (hl3 i).trans ?_⟩
    rcases terminal_cases (hset i) with hf | ha
    · rw [hf]
      simp [pastDump, recordedAt]
    · rw [ha]
      simp [pastDump, recordedAt]

/-- C9 (amended): when the CSV append raises for an item, the exception is
caught by the per-task handler, the item is counted as failed - not
completed - and its row is absent from the output CSV; the run itself
still settles. -/
theorem C9_sink_failure_amended {n : Nat} {P : RunParams n} {s : GState n}
    (h : Reach P s) (hset : Settled s)
    (i : Fin n) (row : ResultRow) (u : ApiUsage)
    (hres : P.taskRes i = TaskResult.sinkFail row u) :
    P.okAt i = false ∧
    s.completed = finCount (fun j => recordedAt (s.pc j) && P.okAt j) ∧
    s.failed = finCount (fun j => recordedAt (s.pc j) && !(P.okAt j)) ∧
    (s.pc i = PC.finished → (recordedAt (s.pc i) && !(P.okAt i)) = true) ∧
    (∀ r ∈ s.csv, r ≠ CsvRow.data row) := by
  have hI := reach_inv h
  have hok : P.okAt i = false := by
    unfold RunParams.okAt TaskResult.isOk
    rw [hres]
  have hbid : row.batch_id = i.val := taskRes_sinkFail_batch_id P i row u hres
  refine ⟨hok, hI.completed_eq, hI.failed_eq, ?_, ?_⟩
  · intro hf
    rw [hf]
    simp [recordedAt, hok]
  · intro r hr
    cases hinit : s.csv_file_initialized with
    | false =>
        obtain ⟨hempty, _⟩ := hI.csv_inv.1 hinit
        rw [hempty] at hr
        cases hr
    | true =>
        obtain ⟨l, hl1, _, _, hl3⟩ := hI.csv_inv.2 hinit
        rw [hl1] at hr
        rcases List.mem_cons.mp hr with hhd | htl
        · rw [hhd]
          intro hcon
          cases hcon
        · obtain ⟨j, hj, hjr⟩ := List.mem_map.mp htl
          intro hcon
          rw [hcon] at hjr
          have hjrow : P.rowAt j = row := by
            injection hjr
          have hjok : P.okAt j = true := ((hl3 j).mp hj).1
          have hjbid := rowAt_batch_id_of_ok P j hjok
          rw [hjrow, hbid] at hjbid
          have hji : j = i := Fin.val_injective hjbid.symm
          rw [hji] at hjok
          rw [hjok] at hok
          cases hok

/-- C7: when the shared question context is empty the request consists of
exactly the three base messages with no context section; when non-empty it
is the three base messages plus the context preamble and the serialized
context as two additional developer messages. -/
theorem C7_context_messages (jdump : JsonVal → String) (w : WorkItem) :
    (w.questionContext = [] →
      buildMessages jdump w = baseMessages w ∧ (buildMessages jdump w).length = 3) ∧
    (w.questionContext ≠ [] →
      buildMessages jdump w = baseMessages w ++
        [⟨"developer", "Here is information you can use to help create your response:"⟩,
         ⟨"developer", jdump (JsonVal.arr w.questionContext)⟩] ∧
      (buildMessages jdump w).length = 5) := by
  constructor
  · intro hempty
    unfold buildMessages baseMessages
    rw [hempty]
    simp
  · intro hne
    have hpos : w.questionContext.length > 0 := List.length_pos.mpr hne
    unfold buildMessages baseMessages
    rw [if_pos hpos]
    simp

/-- One row of the `GPA_Job_Configuration` table, as read at
batch_processor.py lines 51-60. -/
structure JobRow where
  jobName : String
  modelName : String

/-- The configuration environment `process_batches` and `main` read:
the outcome of `dataframes_dict.get('GPA_Job_Configuration')` and
`.get('API_Pricing')`, the result of `load_api_key()` (`none` when the key
file is missing, unreadable or empty), and `len(batches_df)`. -/
structure ConfigEnv where
  jobConfigTable : Option (List JobRow)
  pricingTable : Option (List PricingRow)
  apiKey : Option String
  batchCount : Nat

/-- Where the prologue of `process_batches` (batch_processor.py
lines 37-77) stops, in source order: the empty-batches warning (39-41),
the four configuration checks (44-74), or falling through to client
creation and dispatch (77 onward).  Every early stop is a plain `return`
from `process_batches` - no exception is raised. -/
inductive PBExit where
  | emptyBatches
  | noJobConfigTable
  | noJobRow
  | noPricingTable
  | noApiKey
  | dispatched
deriving DecidableEq, Repr

/-- The prologue of `process_batches`, batch_processor.py lines 37-77,
with the checks in source order. -/
def pbConfigChecks (c : ConfigEnv) (sel : String) : PBExit :=
  if c.batchCount = 0 then PBExit.emptyBatches
  else
    match c.jobConfigTable with
    | none => PBExit.noJobConfigTable
    | some tbl =>
        if (tbl.filter (fun r => r.jobName == sel)).isEmpty then PBExit.noJobRow
        else
          match c.pricingTable with
          | none => PBExit.noPricingTable
          | some _ =>
              match c.apiKey with
              | none => PBExit.noApiKey
              | some _ => PBExit.dispatched

/-- The WARNING log at batch_processor.py line 40 runs only on the
empty-batches early return. -/
def pbWarnsEmpty : PBExit → Bool
  | PBExit.emptyBatches => true
  | _ => false

/-- The `AsyncOpenAI` client (line 77) is created only when every
prologue check passes. -/
def pbCreatesClient : PBExit → Bool
  | PBExit.dispatched => true
  | _ => false

/-- The output path/folder preparation (lines 80-81) runs only past the
prologue. -/
def pbPreparesOutput : PBExit → Bool
  | PBExit.dispatched => true
  | _ => false

/-- The final summary block (lines 292-313) runs only past the
prologue. -/
def pbEmitsSummary : PBExit → Bool
  | PBExit.dispatched => true
  | _ => false

/-- The control flow of `main` (main.py lines 75-128) around
`process_batches`: a missing job-configuration table exits with status 1
before dispatch (lines 82-85); a failed context validation (lines 99-105)
or an empty batch set (lines 111-115) also exit 1; otherwise
`process_batches` runs - returning early with only a logged error on its
own configuration checks - and `main` finishes normally with exit
status 0.  The result is (exit status, whether work items were
dispatched). -/
def mainRun (c : ConfigEnv) (sel : String) (contextOk : Bool) : Nat × Bool :=
  match c.jobConfigTable with
  | none => (1, false)
  | some _ =>
      if contextOk = false then (1, false)
      else if c.batchCount = 0 then (1, false)
      else
        match pbConfigChecks c sel with
        | PBExit.dispatched => (0, true)
        | _ => (0, false)

/-- A configuration-level failure in the sense of the spec: job
configuration table, job row, pricing table or API key absent. -/
def configMissing (c : ConfigEnv) (sel : String) : Prop :=
  c.jobConfigTable = none ∨
  (∃ tbl, c.jobConfigTable = some tbl ∧
    (tbl.filter (fun r => r.jobName == sel)).isEmpty = true) ∨
  c.pricingTable = none ∨
  c.apiKey = none

theorem pbConfigChecks_not_dispatched (c : ConfigEnv) (sel : String)
    (hm : configMissing c sel) : pbConfigChecks c sel ≠ PBExit.dispatched := by
  unfold pbConfigChecks
  intro hcon
  by_cases hb : c.batchCount = 0
  · rw [if_pos hb] at hcon
    cases hcon
  · rw [if_neg hb] at hcon
    rcases hm with h1 | h2 | h3 | h4
    · rw [h1] at hcon
      cases hcon
    · obtain ⟨tbl, htbl, hemp⟩ := h2
      simp only [htbl] at hcon
      rw [if_pos hemp] at hcon
      cases hcon
    · cases htbl : c.jobConfigTable with
      | none => simp [htbl] at hcon
      | some tbl =>
          simp only [htbl] at hcon
          split at hcon
          · cases hcon
          · simp [h3] at hcon
    · cases htbl : c.jobConfigTable with
      | none => simp [htbl] at hcon
      | some tbl =>
          simp only [htbl] at hcon
          split at hcon
          · cases hcon
          · cases hpt : c.pricingTable with
            | none => simp [hpt] at hcon
            | some pr => simp [hpt, h4] at hcon

/-- C6 (amended): every configuration-level failure aborts before any work
item is dispatched, but only a missing job-configuration table makes the
process exit non-zero (via `sys.exit(1)` in `main`); a missing job row,
pricing table or API key detected inside `process_batches` is logged,
`process_batches` returns early, and the process exits 0. -/
theorem C6_config_failure_amended (c : ConfigEnv) (sel : String) (ctxOk : Bool)
    (hm : configMissing c sel) :
    (mainRun c sel ctxOk).2 = false ∧
    (c.jobConfigTable = none → mainRun c sel ctxOk = (1, false)) ∧
    (∀ tbl, c.jobConfigTable = some tbl → ctxOk = true → c.batchCount ≠ 0 →
      mainRun c sel ctxOk = (0, false)) := by
  have hnd := pbConfigChecks_not_dispatched c sel hm
  refine ⟨?_, ?_, ?_⟩
  · unfold mainRun
    cases htbl : c.jobConfigTable with
    | none => rfl
    | some tbl =>
        by_cases hctx : ctxOk = false
        · rw [if_pos hctx]
        · rw [if_neg hctx]
          by_cases hb : c.batchCount = 0
          · rw [if_pos hb]
          · rw [if_neg hb]
            cases hx : pbConfigChecks c sel with
            | dispatched => exact absurd hx hnd
            | emptyBatches => rfl
            | noJobConfigTable => rfl
            | noJobRow => rfl
            | noPricingTable => rfl
            | noApiKey => rfl
  · intro htbl
    unfold mainRun
    rw [htbl]
  · intro tbl htbl hctx hb
    unfold mainRun
    rw [htbl]
    have hctx2 : ¬(ctxOk = false) := by
      rw [hctx]
      simp
    rw [if_neg hctx2, if_neg hb]
    cases hx : pbConfigChecks c sel with
    | dispatched => exact absurd hx hnd
    | emptyBatches => rfl
    | noJobConfigTable => rfl
    | noJobRow => rfl
    | noPricingTable => rfl
    | noApiKey => rfl

/-- C10: with an empty work-item collection, `process_batches` logs the
warning and returns at once: no completion client is created, no output
location is prepared, and no run summary is produced. -/
theorem C10_empty_batches (c : ConfigEnv) (sel : String) (h : c.batchCount = 0) :
    pbConfigChecks c sel = PBExit.emptyBatches ∧
    pbWarnsEmpty (pbConfigChecks c sel) = true ∧
    pbCreatesClient (pbConfigChecks c sel) = false ∧
    pbPreparesOutput (pbConfigChecks c sel) = false ∧
    pbEmitsSummary (pbConfigChecks c sel) = false := by
  have hpb : pbConfigChecks c sel = PBExit.emptyBatches := by
    unfold pbConfigChecks
    rw [if_pos h]
  rw [hpb]
  exact ⟨rfl, rfl, rfl, rfl, rfl⟩

/-- A configuration environment whose pricing table is absent but whose
other configuration is intact, with one work item. -/
def c6Env : ConfigEnv :=
  { jobConfigTable := some [{ jobName := "job", modelName := "gpt-4o" }]
    pricingTable := none
    apiKey := some "key"
    batchCount := 1 }

/-- C6 counterexample: with the pricing table absent, the run does abort
before dispatch, but the process exit status is 0, not non-zero as the
claim states. -/
theorem C6_counterexample :
    configMissing c6Env "job" ∧
    (mainRun c6Env "job" true).2 = false ∧
    (mainRun c6Env "job" true).1 = 0 := by
  refine ⟨Or.inr (Or.inr (Or.inl rfl)), ?_, ?_⟩
  · rfl
  · rfl

/-- C6 witness: the amended statement applied to the concrete environment
with the pricing table absent. -/
theorem C6_witness :
    (mainRun c6Env "job" true).2 = false ∧
    (c6Env.jobConfigTable = none → mainRun c6Env "job" true = (1, false)) ∧
    (∀ tbl, c6Env.jobConfigTable = some tbl → true = true → c6Env.batchCount ≠ 0 →
      mainRun c6Env "job" true = (0, false)) :=
  C6_config_failure_amended c6Env "job" true (Or.inr (Or.inr (Or.inl rfl)))

/-- An intact configuration environment with zero work items. -/
def c10Env : ConfigEnv :=
  { jobConfigTable := some [{ jobName := "job", modelName := "gpt-4o" }]
    pricingTable := some [{ modelName := "gpt-4o", inputCostPerMillion := 1,
                            outputCostPerMillion := 2 }]
    apiKey := some "key"
    batchCount := 0 }

/-- C10 witness: the empty-batches behaviour at a concrete environment. -/
theorem C10_witness :
    pbConfigChecks c10Env "job" = PBExit.emptyBatches ∧
    pbWarnsEmpty (pbConfigChecks c10Env "job") = true ∧
    pbCreatesClient (pbConfigChecks c10Env "job") = false ∧
    pbPreparesOutput (pbConfigChecks c10Env "job") = false ∧
    pbEmitsSummary (pbConfigChecks c10Env "job") = false :=
  C10_empty_batches c10Env "job" rfl

/-- A work item with empty question context. -/
def itemNoCtx : WorkItem :=
  { systemRoleContent := "You are a reviewer."
    recordJson := "\x7b\"id\": 1\x7d"
    questionContext := []
    responseFormat := JsonVal.obj []
    sourceFile := "records.csv" }

/-- The same work item with a one-record question context. -/
def itemWithCtx : WorkItem :=
  { itemNoCtx with questionContext := [JsonVal.obj [("k", JsonVal.str "v")]] }

/-- C7 witness: the two message shapes at concrete work items. -/
theorem C7_witness :
    (buildMessages (fun _ => "ctx") itemNoCtx = baseMessages itemNoCtx ∧
      (buildMessages (fun _ => "ctx") itemNoCtx).length = 3) ∧
    (buildMessages (fun _ => "ctx") itemWithCtx = baseMessages itemWithCtx ++
      [⟨"developer", "Here is information you can use to help create your response:"⟩,
       ⟨"developer", "ctx"⟩] ∧
      (buildMessages (fun _ => "ctx") itemWithCtx).length = 5) :=
  ⟨(C7_context_messages (fun _ => "ctx") itemNoCtx).1 rfl,
   (C7_context_messages (fun _ => "ctx") itemWithCtx).2 (by
      intro hcon
      cases hcon)⟩

/-- A concrete JSON decoder used for the concrete runs: "good" parses to
an object with one result, "empty" to an object with an empty results
list, everything else fails to parse. -/
def loadsFixture : String → Option JsonVal := fun c =>
  if c = "good" then
    some (JsonVal.obj [("results",
      JsonVal.arr [JsonVal.obj [("answer", JsonVal.str "yes")]])])
  else if c = "empty" then
    some (JsonVal.obj [("results", JsonVal.arr [])])
  else none

/-- One-item run whose task succeeds with usage 100/50 tokens. -/
def pOk : RunParams 1 :=
  { items := fun _ => itemNoCtx
    env := fun _ => TaskEnv.response "good" ⟨100, 50⟩ true
    jsonLoads := loadsFixture
    jdump := fun _ => "ctx"
    pricing := [{ modelName := "gpt-4o", inputCostPerMillion := 1,
                  outputCostPerMillion := 2 }]
    modelName := "gpt-4o" }

/-- The result row the successful task writes. -/
def rowOk : ResultRow :=
  { fields := [("answer", JsonVal.str "yes")]
    source_file := "records.csv"
    batch_id := 0 }

def sOk0 : GState 1 := initState 1
def sOk1 : GState 1 := { sOk0 with pc := Function.update sOk0.pc 0 PC.waitingSem }
def sOk2 : GState 1 := { sOk1 with semAvail := sOk1.semAvail - 1
                                   pc := Function.update sOk1.pc 0 PC.slotHeld }
def sOk3 : GState 1 := { sOk2 with pc := Function.update sOk2.pc 0 PC.admitted }
def sOk4 : GState 1 := { sOk3 with in_flight := sOk3.in_flight + 1
                                   pc := Function.update sOk3.pc 0 PC.working }
def sOk5 : GState 1 :=
  { sOk4 with
    csv := if sOk4.csv_file_initialized then sOk4.csv ++ [CsvRow.data rowOk]
           else [CsvRow.header, CsvRow.data rowOk]
    csv_file_initialized := true
    pc := Function.update sOk4.pc 0 PC.csvWritten }
def sOk6 : GState 1 :=
  { sOk5 with
    completed := sOk5.completed + 1
    in_flight := sOk5.in_flight - 1
    total_cost := sOk5.total_cost + tokenCost pOk.pricing pOk.modelName 100 50
    total_input_tokens := sOk5.total_input_tokens + 100
    total_output_tokens := sOk5.total_output_tokens + 50
    pc := Function.update sOk5.pc 0 PC.exiting }
def sOk7 : GState 1 := { sOk6 with semAvail := sOk6.semAvail + 1
                                   pc := Function.update sOk6.pc 0 PC.finished }

theorem reach_sOk7 : Reach pOk sOk7 := by
  have h0 : Reach pOk sOk0 := Relation.ReflTransGen.refl
  have h1 : Reach pOk sOk1 := h0.tail (Step.enterBody sOk0 0 rfl rfl)
  have h2 : Reach pOk sOk2 := h1.tail (Step.acquireSlot sOk1 0 rfl (by decide))
  have h3 : Reach pOk sOk3 := h2.tail (Step.passCheck sOk2 0 rfl rfl)
  have h4 : Reach pOk sOk4 := h3.tail (Step.incrFlight sOk3 0 rfl)
  have h5 : Reach pOk sOk5 := h4.tail (Step.writeCsv sOk4 0 rowOk ⟨100, 50⟩ rfl rfl)
  have h6 : Reach pOk sOk6 := h5.tail (Step.recordOk sOk5 0 rowOk ⟨100, 50⟩ rfl rfl)
  exact h6.tail (Step.releaseSlot sOk6 0 rfl)

theorem settled_sOk7 : Settled sOk7 := by
  intro i
  rw [Fin.fin_one_eq_zero i]
  rfl

/-- C1 witness: the concrete one-item successful run settles with
`completed + failed = 1`. -/
theorem C1_witness :
    sOk7.completed + sOk7.failed = 1 ∧
    sOk7.completed = finCount (fun i => pOk.okAt i) ∧
    sOk7.failed = finCount (fun i => !(pOk.okAt i)) :=
  C1_settled_counts_total reach_sOk7 settled_sOk7 rfl

/-- C2 witness: the bounds at the initial state of the one-item run. -/
theorem C2_witness :
    0 ≤ (initState 1).in_flight ∧ (initState 1).in_flight ≤ 50 ∧
    (initState 1).completed + (initState 1).failed ≤ 1 ∧
    ∀ s2 : GState 1, Step pOk (initState 1) s2 →
      (initState 1).completed + (initState 1).failed ≤ s2.completed + s2.failed ∧
      s2.completed + s2.failed ≤ 1 :=
  C2_in_flight_bounds Relation.ReflTransGen.refl

/-- C3 witness: the CSV structure of the settled one-item successful run. -/
theorem C3_witness :
    (sOk7.completed = 0 → sOk7.csv = []) ∧
    (0 < sOk7.completed → ∃ l : List (Fin 1),
      sOk7.csv = CsvRow.header :: l.map (fun i => CsvRow.data (pOk.rowAt i)) ∧
      l.length = sOk7.completed ∧ l.Nodup ∧
      (∀ i ∈ l, pOk.okAt i = true ∧ (pOk.rowAt i).batch_id = i.val) ∧
      (l.map (fun i => (pOk.rowAt i).batch_id)).Nodup) :=
  C3_csv_structure reach_sOk7 settled_sOk7

/-- C4 witness: the cost accounting of the settled one-item successful
run. -/
theorem C4_witness :
    (∀ r, pricingLookup pOk.pricing pOk.modelName = some r → ∀ pt ct,
      tokenCost pOk.pricing pOk.modelName pt ct
        = ((pt : ℚ) / 1000000) * r.inputCostPerMillion
          + ((ct : ℚ) / 1000000) * r.outputCostPerMillion) ∧
    (pricingLookup pOk.pricing pOk.modelName = none →
      ∀ pt ct, tokenCost pOk.pricing pOk.modelName pt ct = 0) ∧
    sOk7.total_cost
      = finSum (fun i => recordedAt (sOk7.pc i) && pOk.okAt i) pOk.costAt ∧
    (∀ i, pOk.okAt i = true →
      pOk.costAt i = tokenCost pOk.pricing pOk.modelName (pOk.ptAt i) (pOk.ctAt i)) ∧
    (∀ i, pOk.okAt i = false → pOk.costAt i = 0) :=
  C4_cost_formula_sum reach_sOk7 settled_sOk7

/-- The cancelled run: the flag is set before the single task starts. -/
def sCan1 : GState 1 := { initState 1 with shutdown := true }
def sCan2 : GState 1 := { sCan1 with pc := Function.update sCan1.pc 0 PC.abandoned }

theorem reach_sCan1 : Reach pOk sCan1 :=
  Relation.ReflTransGen.tail Relation.ReflTransGen.refl
    (Step.cancelRun (initState 1) rfl)

theorem steps_sCan1_sCan2 : Relation.ReflTransGen (Step pOk) sCan1 sCan2 :=
  Relation.ReflTransGen.tail Relation.ReflTransGen.refl
    (Step.skipEarly sCan1 0 rfl rfl)

theorem settled_sCan2 : Settled sCan2 := by
  intro i
  rw [Fin.fin_one_eq_zero i]
  rfl

/-- C5 witness: cancellation before admission on the one-item run - the
task ends abandoned, no outcome is recorded, and the summary is still
produced. -/
theorem C5_witness :
    sCan2.completed + sCan2.failed
        ≤ finCount (fun i => pastAdmission (sCan1.pc i)) ∧
    (∀ i, pastAdmission (sCan1.pc i) = false → sCan2.pc i = PC.abandoned) ∧
    (∀ i, pastAdmission (sCan1.pc i) = true → sCan2.pc i = PC.finished) ∧
    sCan2.completed = finCount (fun i => recordedAt (sCan2.pc i) && pOk.okAt i) ∧
    sCan2.failed = finCount (fun i => recordedAt (sCan2.pc i) && !(pOk.okAt i)) ∧
    summaryOf sCan2 = ⟨1, sCan2.completed, sCan2.failed, sCan2.total_cost,
      sCan2.total_input_tokens, sCan2.total_output_tokens⟩ :=
  C5_cancellation reach_sCan1 rfl steps_sCan1_sCan2 settled_sCan2

/-- One-item run whose task gets a parsed response with an empty
`results` list. -/
def pEmpty : RunParams 1 :=
  { pOk with env := fun _ => TaskEnv.response "empty" ⟨80, 10⟩ true }

def sEm0 : GState 1 := initState 1
def sEm1 : GState 1 := { sEm0 with pc := Function.update sEm0.pc 0 PC.waitingSem }
def sEm2 : GState 1 := { sEm1 with semAvail := sEm1.semAvail - 1
                                   pc := Function.update sEm1.pc 0 PC.slotHeld }
def sEm3 : GState 1 := { sEm2 with pc := Function.update sEm2.pc 0 PC.admitted }
def sEm4 : GState 1 := { sEm3 with in_flight := sEm3.in_flight + 1
                                   pc := Function.update sEm3.pc 0 PC.working }
def sEm5 : GState 1 := { sEm4 with dumps := sEm4.dumps ++ [mkDump pEmpty 0 "empty"]
                                   pc := Function.update sEm4.pc 0 PC.dumped }
def sEm6 : GState 1 := { sEm5 with failed := sEm5.failed + 1
                                   in_flight := sEm5.in_flight - 1
                                   pc := Function.update sEm5.pc 0 PC.exiting }
def sEm7 : GState 1 := { sEm6 with semAvail := sEm6.semAvail + 1
                                   pc := Function.update sEm6.pc 0 PC.finished }

theorem reach_sEm7 : Reach pEmpty sEm7 := by
  have h0 : Reach pEmpty sEm0 := Relation.ReflTransGen.refl
  have h1 : Reach pEmpty sEm1 := h0.tail (Step.enterBody sEm0 0 rfl rfl)
  have h2 : Reach pEmpty sEm2 := h1.tail (Step.acquireSlot sEm1 0 rfl (by decide))
  have h3 : Reach pEmpty sEm3 := h2.tail (Step.passCheck sEm2 0 rfl rfl)
  have h4 : Reach pEmpty sEm4 := h3.tail (Step.incrFlight sEm3 0 rfl)
  have h5 : Reach pEmpty sEm5 := h4.tail (Step.dumpDebug sEm4 0 "empty" rfl rfl)
  have h6 : Reach pEmpty sEm6 := h5.tail (Step.emptyFail sEm5 0 "empty" rfl rfl)
  exact h6.tail (Step.releaseSlot sEm6 0 rfl)

theorem settled_sEm7 : Settled sEm7 := by
  intro i
  rw [Fin.fin_one_eq_zero i]
  rfl

/-- C8 witness: the classification and dump behaviour of the settled
one-item empty-results run. -/
theorem C8_witness :
    (∀ c, pEmpty.jsonLoads c = none →
      classifyResponse pEmpty.jsonLoads c = RespClass.parseFailure) ∧
    (∀ c d results, pEmpty.jsonLoads c = some d →
      dictGetResults d = Except.ok results → pyFalsy results = true →
      classifyResponse pEmpty.jsonLoads c = RespClass.emptyResults) ∧
    (∀ i, pEmpty.taskRes i = TaskResult.parseFail →
      pEmpty.okAt i = false ∧ pEmpty.emptyAt i = false) ∧
    (∀ i raw, pEmpty.taskRes i = TaskResult.emptyRes raw →
      pEmpty.okAt i = false ∧ pEmpty.emptyAt i = true) ∧
    sEm7.failed = finCount (fun i => recordedAt (sEm7.pc i) && !(pEmpty.okAt i)) ∧
    sEm7.completed + sEm7.failed = finCount (fun i => recordedAt (sEm7.pc i)) ∧
    (∃ l : List (Fin 1), sEm7.dumps = l.map (fun i => mkDump pEmpty i (pEmpty.rawAt i)) ∧
      l.Nodup ∧
      ∀ i, i ∈ l ↔ (pEmpty.emptyAt i = true ∧ recordedAt (sEm7.pc i) = true)) ∧
    (∀ i, mkDump pEmpty i (pEmpty.rawAt i)
      = ⟨i.val, buildMessages pEmpty.jdump (pEmpty.items i),
          (pEmpty.items i).responseFormat, pEmpty.rawAt i⟩) :=
  C8_failure_classification reach_sEm7 settled_sEm7

/-- One-item run whose task succeeds remotely but whose CSV append
raises. -/
def pSink : RunParams 1 :=
  { pOk with env := fun _ => TaskEnv.response "good" ⟨100, 50⟩ false }

def sSk0 : GState 1 := initState 1
def sSk1 : GState 1 := { sSk0 with pc := Function.update sSk0.pc 0 PC.waitingSem }
def sSk2 : GState 1 := { sSk1 with semAvail := sSk1.semAvail - 1
                                   pc := Function.update sSk1.pc 0 PC.slotHeld }
def sSk3 : GState 1 := { sSk2 with pc := Function.update sSk2.pc 0 PC.admitted }
def sSk4 : GState 1 := { sSk3 with in_flight := sSk3.in_flight + 1
                                   pc := Function.update sSk3.pc 0 PC.working }
def sSk5 : GState 1 := { sSk4 with failed := sSk4.failed + 1
                                   in_flight := sSk4.in_flight - 1
                                   pc := Function.update sSk4.pc 0 PC.exiting }
def sSk6 : GState 1 := { sSk5 with semAvail := sSk5.semAvail + 1
                                   pc := Function.update sSk5.pc 0 PC.finished }

theorem reach_sSk6 : Reach pSink sSk6 := by
  have h0 : Reach pSink sSk0 := Relation.ReflTransGen.refl
  have h1 : Reach pSink sSk1 := h0.tail (Step.enterBody sSk0 0 rfl rfl)
  have h2 : Reach pSink sSk2 := h1.tail (Step.acquireSlot sSk1 0 rfl (by decide))
  have h3 : Reach pSink sSk3 := h2.tail (Step.passCheck sSk2 0 rfl rfl)
  have h4 : Reach pSink sSk4 := h3.tail (Step.incrFlight sSk3 0 rfl)
  have h5 : Reach pSink sSk5 := h4.tail (Step.plainFail sSk4 0 rfl rfl)
  exact h5.tail (Step.releaseSlot sSk5 0 rfl)

theorem settled_sSk6 : Settled sSk6 := by
  intro i
  rw [Fin.fin_one_eq_zero i]
  rfl

/-- C9 counterexample: a settled run in which the single item's CSV append
raised; the item is counted as failed and the completed counter stays 0,
contradicting the claim that such an item is still counted as
completed. -/
theorem C9_counterexample :
    Reach pSink sSk6 ∧ Settled sSk6 ∧
    pSink.taskRes 0 = TaskResult.sinkFail rowOk ⟨100, 50⟩ ∧
    sSk6.completed = 0 ∧ sSk6.failed = 1 ∧ sSk6.csv = [] :=
  ⟨reach_sSk6, settled_sSk6, rfl, rfl, rfl, rfl⟩

/-- C9 witness: the amended statement at the settled sink-failure run. -/
theorem C9_witness :
    pSink.okAt 0 = false ∧
    sSk6.completed = finCount (fun j => recordedAt (sSk6.pc j) && pSink.okAt j) ∧
    sSk6.failed = finCount (fun j => recordedAt (sSk6.pc j) && !(pSink.okAt j)) ∧
    (sSk6.pc 0 = PC.finished → (recordedAt (sSk6.pc 0) && !(pSink.okAt 0)) = true) ∧
    (∀ r ∈ sSk6.csv, r ≠ CsvRow.data rowOk) :=
  C9_sink_failure_amended reach_sSk6 settled_sSk6 0 rowOk ⟨100, 50⟩ rfl

/-- One-item run whose task's remote call raises a transport error. -/
def pFail : RunParams 1 :=
  { pOk with env := fun _ => TaskEnv.transportFail }

def sFl0 : GState 1 := initState 1
def sFl1 : GState 1 := { sFl0 with pc := Function.update sFl0.pc 0 PC.waitingSem }
def sFl2 : GState 1 := { sFl1 with semAvail := sFl1.semAvail - 1
                                   pc := Function.update sFl1.pc 0 PC.slotHeld }
def sFl3 : GState 1 := { sFl2 with pc := Function.update sFl2.pc 0 PC.admitted }
def sFl4 : GState 1 := { sFl3 with in_flight := sFl3.in_flight + 1
                                   pc := Function.update sFl3.pc 0 PC.working }
def sFl5 : GState 1 := { sFl4 with failed := sFl4.failed + 1
                                   in_flight := sFl4.in_flight - 1
                                   pc := Function.update sFl4.pc 0 PC.exiting }
def sFl6 : GState 1 := { sFl5 with semAvail := sFl5.semAvail + 1
                                   pc := Function.update sFl5.pc 0 PC.finished }

theorem reach_sFl6 : Reach pFail sFl6 := by
  have h0 : Reach pFail sFl0 := Relation.ReflTransGen.refl
  have h1 : Reach pFail sFl1 := h0.tail (Step.enterBody sFl0 0 rfl rfl)
  have h2 : Reach pFail sFl2 := h1.tail (Step.acquireSlot sFl1 0 rfl (by decide))
  have h3 : Reach pFail sFl3 := h2.tail (Step.passCheck sFl2 0 rfl rfl)
  have h4 : Reach pFail sFl4 := h3.tail (Step.incrFlight sFl3 0 rfl)
  have h5 : Reach pFail sFl5 := h4.tail (Step.plainFail sFl4 0 rfl rfl)
  exact h5.tail (Step.releaseSlot sFl5 0 rfl)

theorem settled_sFl6 : Settled sFl6 := by
  intro i
  rw [Fin.fin_one_eq_zero i]
  rfl

/-- C3 counterexample: a settled, uncancelled run in which the single
item fails (its remote call raised), so nothing is ever written to the
Result Sink: the output CSV is empty - it contains no header row at all,
contradicting the claim that after settlement the sink holds exactly one
header row. -/
theorem C3_counterexample :
    Reach pFail sFl6 ∧ Settled sFl6 ∧ sFl6.shutdown = false ∧
    sFl6.completed = 0 ∧ sFl6.failed = 1 ∧ sFl6.csv = [] :=
  ⟨reach_sFl6, settled_sFl6, rfl, rfl, rfl, rfl⟩
